import Mathlib

/-!
# check-service-certs: certificate expiry check and notification pipeline

Shallow embedding of `src/service.go` (`newServiceFromConfig`) and of the
certificate evaluation goroutine and the notification dispatcher of
`src/main.go`, followed by the properties proved about them.

Conventions
* A `time.Time` is an integer count of nanoseconds on the wall clock, a
  `time.Duration` is an integer count of nanoseconds in the int64 range.
* A `float64` is the rational number it denotes; every floating-point
  operation is the exact rational operation followed by `float64`, the
  IEEE 754 round-to-nearest-even rounding to 53 significant bits.
* The collaborators outside the repository (viper configuration lookup, the
  file system, `encoding/pem`, `crypto/x509`, `text/template`, the clock)
  are fields of `World`; the evaluation code is a function of them.
-/

namespace CheckServiceCerts

/-! ## Durations and instants (package `time`) -/

/-- One second, in nanoseconds (`time.Second`). -/
def Second : Int := 1000000000

/-- One hour, in nanoseconds (`time.Hour`). -/
def Hour : Int := 3600000000000

/-- Largest `time.Duration` (int64 maximum). -/
def maxDuration : Int := 2 ^ 63 - 1

/-- Smallest `time.Duration` (int64 minimum). -/
def minDuration : Int := -(2 ^ 63)

/-- `t.Add(d)`: the instant `t + d`. -/
def timeAdd (t d : Int) : Int := t + d

/-- `t.After(u)`: whether the instant `t` is strictly after `u`. -/
def timeAfter (t u : Int) : Bool := decide (u < t)

/-- `t.Sub(u)`: the duration `t - u`, saturated to the int64 range as the
library documents. -/
def timeSub (t u : Int) : Int :=
  if maxDuration < t - u then maxDuration
  else if t - u < minDuration then minDuration
  else t - u

/-! ## float64 arithmetic -/

/-- Nearest integer to a rational, ties to the even integer. -/
def roundHalfEven (x : ℚ) : ℤ :=
  if x - ⌊x⌋ < 1 / 2 then ⌊x⌋
  else if 1 / 2 < x - ⌊x⌋ then ⌊x⌋ + 1
  else if ⌊x⌋ % 2 = 0 then ⌊x⌋
  else ⌊x⌋ + 1

/-- Exponent of the unit in the last place of the binade of `x`: 53
significant bits, subnormal below `2 ^ (-1022)`. -/
def ulpExp (x : ℚ) : ℤ := max (Int.log 2 |x|) (-1022) - 52

/-- IEEE 754 binary64 rounding (round to nearest, ties to even) of a
rational of magnitude below `2 ^ 1024`. -/
def float64 (x : ℚ) : ℚ :=
  if x = 0 then 0 else roundHalfEven (x / 2 ^ ulpExp x) * 2 ^ ulpExp x

/-- `d.Hours()`:
`hour := d / Hour; nsec := d % Hour; float64(hour) + float64(nsec)/(60*60*1e9)`
with Go integer division and remainder (truncated toward zero). -/
def durationHours (d : Int) : ℚ :=
  float64 (float64 (Int.tdiv d Hour) +
    float64 (float64 (Int.tmod d Hour) / 3600000000000))

/-- `int(math.Floor(expiration.Sub(now).Hours() / 24.0))`
(`src/main.go` line 323). -/
def numDays (expiration now : Int) : Int :=
  ⌊float64 (durationHours (timeSub expiration now) / 24)⌋

/-! ## `time.ParseDuration`

The duration parser of the Go standard library, which `newServiceFromConfig`
calls on the configured strings. Strings are read as lists of characters;
the accumulators are uint64 values. -/

/-- The unit table of `time.ParseDuration`, in nanoseconds. -/
def unitMap (u : String) : Option Nat :=
  if u = "ns" then some 1
  else if u = "us" then some 1000
  else if u = "µs" then some 1000
  else if u = "μs" then some 1000
  else if u = "ms" then some 1000000
  else if u = "s" then some 1000000000
  else if u = "m" then some 60000000000
  else if u = "h" then some 3600000000000
  else none

/-- A character of `[0-9]`. -/
def isDigit (c : Char) : Bool := decide ('0' ≤ c) && decide (c ≤ '9')

/-- A character of `[0-9.]`. -/
def isNumberChar (c : Char) : Bool := c == '.' || isDigit c

/-- `leadingInt`: consumes the leading `[0-9]*`, failing when the value
exceeds `1 << 63`. Called with accumulator `0`. -/
def leadingInt : List Char → Nat → Option (Nat × List Char)
  | [], x => some (x, [])
  | c :: cs, x =>
    if !isDigit c then some (x, c :: cs)
    else if x > 2 ^ 63 / 10 then none
    else if x * 10 + (c.toNat - 48) > 2 ^ 63 then none
    else leadingInt cs (x * 10 + (c.toNat - 48))

/-- `leadingFraction`: consumes the leading `[0-9]*` of a fraction; on
overflow it stops accumulating precision instead of failing. Returns the
digits read as an integer, the float64 scale `10 ^ digits`, and the rest. -/
def leadingFraction : List Char → Nat → ℚ → Bool → Nat × ℚ × List Char
  | [], x, scale, _ => (x, scale, [])
  | c :: cs, x, scale, overflow =>
    if !isDigit c then (x, scale, c :: cs)
    else if overflow then leadingFraction cs x scale true
    else if x > (2 ^ 63 - 1) / 10 then leadingFraction cs x scale true
    else if x * 10 + (c.toNat - 48) > 2 ^ 63 then leadingFraction cs x scale true
    else leadingFraction cs (x * 10 + (c.toNat - 48)) (float64 (scale * 10)) false

/-- The loop `for s != ""` of `time.ParseDuration`: one
`[0-9]*(\.[0-9]*)?[a-z]+` group per round, `d` the nanoseconds summed so
far. Every round consumes at least one character, so `fuel` above the
length of the string is never exhausted. -/
def parseDurationLoop : Nat → List Char → Nat → Option Nat
  | 0, _, _ => none
  | fuel + 1, s, d =>
    match s with
    | [] => some d
    | c :: _ =>
      if !isNumberChar c then none
      else
        match leadingInt s 0 with
        | none => none
        | some (v, s1) =>
          let pre := s.length != s1.length
          let frac : Nat × ℚ × List Char × Bool :=
            match s1 with
            | [] => (0, 1, [], false)
            | c1 :: r =>
              if c1 == '.' then
                let fr := leadingFraction r 0 1 false
                (fr.1, fr.2.1, fr.2.2, r.length != fr.2.2.length)
              else (0, 1, s1, false)
          let f := frac.1
          let scale := frac.2.1
          let s2 := frac.2.2.1
          let post := frac.2.2.2
          if !pre && !post then none
          else
            let u := s2.takeWhile (fun c => !isNumberChar c)
            let s3 := s2.dropWhile (fun c => !isNumberChar c)
            if u.isEmpty then none
            else
              match unitMap (String.mk u) with
              | none => none
              | some unit =>
                if v > 2 ^ 63 / unit then none
                else
                  let v1 := v * unit
                  let v2 :=
                    if f > 0 then
                      (v1 + Int.toNat ⌊float64 (float64 f * float64 (float64 unit / scale))⌋)
                        % 2 ^ 64
                    else v1
                  if f > 0 && v2 > 2 ^ 63 then none
                  else
                    let d1 := (d + v2) % 2 ^ 64
                    if d1 > 2 ^ 63 then none
                    else parseDurationLoop fuel s3 d1

/-- `time.ParseDuration(s)`: `none` stands for a non-nil error. -/
def parseDuration (s : String) : Option Int :=
  let neg : Bool := s.data.head? == some '-'
  let body : List Char :=
    match s.data with
    | [] => []
    | c :: cs => if c == '-' || c == '+' then cs else c :: cs
  if body = ['0'] then some 0
  else if body = [] then none
  else
    match parseDurationLoop (body.length + 1) body 0 with
    | none => none
    | some d =>
      if neg then some (-(d : Int))
      else if d > 2 ^ 63 - 1 then none
      else some (d : Int)

/-! ## The collaborators outside the repository -/

/-- Outcome of `os.Open(certPath)`: the error for which `os.IsNotExist`
holds, any other error, or an open file. -/
inductive OpenResult where
  | notExist
  | otherError
  | opened
  deriving DecidableEq, Repr

/-- The data handed to `tmpl.Execute` (`messageArgs`, `src/main.go` lines
325 to 333). -/
structure MessageArgs where
  ServiceName : String
  CertPath : String
  NumDays : Int
  deriving DecidableEq, Repr

/-- Everything the program reads from outside itself. A failing call
(non-nil error, nil PEM block) is `none`. -/
structure World where
  /-- `viper.GetBool` -/
  getBool : String → Bool
  /-- `viper.GetString` -/
  getString : String → String
  /-- `viper.GetStringSlice` -/
  getStringSlice : String → List String
  /-- `viper.GetInt` -/
  getInt : String → Int
  /-- `os.Open` on a certificate path -/
  osOpen : String → OpenResult
  /-- `io.ReadAll` on the opened certificate file -/
  ioReadAll : String → Option (List Nat)
  /-- `pem.Decode`: the bytes of the first PEM block -/
  pemDecode : List Nat → Option (List Nat)
  /-- `x509.ParseCertificate` followed by `cert.NotAfter` -/
  parseCertificate : List Nat → Option Int
  /-- `os.ReadFile` on the template path -/
  osReadFile : String → Option String
  /-- `template.New("expiringCert").Parse`: whether the text parses -/
  templateParse : String → Bool
  /-- `tmpl.Execute` of the parsed text: the rendered text -/
  templateExecute : String → MessageArgs → Option String
  /-- `now.Format(time.RFC822)` -/
  formatRFC822 : Int → String

/-! ## `src/service.go` -/

/-- The hardcoded default lifetime string. -/
def defaultHostCertLifetime : String := "720h"

/-- A service: its name, certificate paths and minimum certificate
lifetime in nanoseconds. -/
structure service where
  name : String
  certPaths : List String
  minCertLifetime : Int
  deriving DecidableEq, Repr

/-- `newServiceFromConfig(serviceKey, overrideName)`. The log calls on the
two parse-failure paths do not change the returned value and are left out.
`s.minCertLifetime, _ = time.ParseDuration(defaultHostCertLifetime)` leaves
the zero value when the parse fails. -/
def newServiceFromConfig (w : World) (serviceKey overrideName : String) : service :=
  { name := if overrideName ≠ "" then overrideName else serviceKey
    certPaths := w.getStringSlice (serviceKey ++ ".certPaths")
    minCertLifetime :=
      if w.getString (serviceKey ++ ".minCertLifetime") = "" then
        match parseDuration (w.getString "global.minCertLifetime") with
        | some d => d
        | none => (parseDuration defaultHostCertLifetime).getD 0
      else
        match parseDuration (w.getString (serviceKey ++ ".minCertLifetime")) with
        | some d => d
        | none => (parseDuration defaultHostCertLifetime).getD 0 }

/-! ## `src/main.go`: the certificate evaluation task -/

/-- Modelled from the spec: the two implementations of the `Message`
interface, built by `NewEmail` and `NewSlackMessage`, are not among the
source files; the spec names them Email (to, from, subject, smtp host/port)
and chat-webhook (URL). A constructor records the arguments of the call. -/
inductive Message where
  | email (sender : String) (recipients : List String) (subject : String)
      (smtpHost : String) (smtpPort : Int) (password : String)
  | slackMessage (url : String)
  deriving DecidableEq, Repr

/-- The struct `messageToSend` of `main`. -/
structure messageToSend where
  msg : Message
  text : String
  serviceName : String
  deriving DecidableEq, Repr

/-- The log calls of the evaluation task, one constructor per call site. -/
inductive LogEvent where
  /-- line 218, Error -/
  | certPathDoesNotExist (certPath serviceName : String)
  /-- line 226, Error -/
  | couldNotOpen (certPath serviceName : String)
  /-- line 239, Error -/
  | couldNotRead (certPath serviceName : String)
  /-- line 249, Error -/
  | couldNotDecodePEM (certPath serviceName : String)
  /-- line 260, Error -/
  | couldNotParseDER (certPath serviceName : String)
  /-- line 267, Debug -/
  | readAndDecoded (certPath serviceName : String)
  /-- line 274, Debug -/
  | ingested (certPath : String) (expiration : Int) (serviceName : String)
  /-- line 283, Warn: the certificate will expire within the lifetime -/
  | willExpire (certPath : String) (expiration : Int) (serviceName : String)
  /-- line 290, Info: the certificate will not expire within the lifetime -/
  | willNotExpire (certPath : String) (expiration : Int) (serviceName : String)
  /-- line 318, Error -/
  | couldNotReadTemplate (serviceName : String)
  /-- line 336, Error -/
  | couldNotExecuteTemplate (serviceName : String)
  deriving DecidableEq, Repr

/-- What one evaluation goroutine did: its log lines, the messages it put
on `notificationsChan` in order, and whether it panicked. -/
structure TaskResult where
  log : List LogEvent
  sent : List messageToSend
  panicked : Bool
  deriving DecidableEq, Repr

/-- `configNotificationsPrefix` (lines 154 to 159). -/
def configNotificationsPrefix (w : World) : String :=
  if w.getBool "test" then "notifications_test." else "notifications."

/-- The expiry check of line 277: `now.Add(s.minCertLifetime).After(expiration)`. -/
def expiring (now minCertLifetime expiration : Int) : Bool :=
  timeAfter (timeAdd now minCertLifetime) expiration

/-- Step 3 of the goroutine (lines 298 to 348), reached for an expiring
certificate outside test mode: build the two notifications, render the
template, put both on the channel. `template.Must` panics when the
template text does not parse. -/
def notify (w : World) (s : service) (now : Int) (certPath : String)
    (expiration : Int) (log : List LogEvent) : TaskResult :=
  let emailToSend := Message.email (w.getString "email.from")
    (w.getStringSlice (configNotificationsPrefix w ++ "admin_email"))
    ("Service Certificates Check (" ++ s.name ++ "), " ++ w.formatRFC822 now)
    (w.getString "email.smtphost") (w.getInt "email.smtpport") ""
  let slackMessageToSend :=
    Message.slackMessage (w.getString (configNotificationsPrefix w ++ "slack_alerts_url"))
  match w.osReadFile (w.getString "global.template") with
  | none => ⟨log ++ [LogEvent.couldNotReadTemplate s.name], [], false⟩
  | some templateData =>
    if !w.templateParse templateData then ⟨log, [], true⟩
    else
      match w.templateExecute templateData
          ⟨s.name, certPath, numDays expiration now⟩ with
      | none => ⟨log ++ [LogEvent.couldNotExecuteTemplate s.name], [], false⟩
      | some text =>
        ⟨log, [⟨emailToSend, text, s.name⟩, ⟨slackMessageToSend, text, s.name⟩], false⟩

/-- Step 2 of the goroutine (lines 269 to 296) for a certificate that was
read: the expiry check, then the test-mode return. -/
def checkExpiration (w : World) (s : service) (now : Int) (certPath : String)
    (expiration : Int) (log : List LogEvent) : TaskResult :=
  if expiring now s.minCertLifetime expiration then
    if w.getBool "test" then
      ⟨log ++ [LogEvent.willExpire certPath expiration s.name], [], false⟩
    else
      notify w s now certPath expiration
        (log ++ [LogEvent.willExpire certPath expiration s.name])
  else
    ⟨log ++ [LogEvent.willNotExpire certPath expiration s.name], [], false⟩

/-- The goroutine started for one certificate path (lines 207 to 349);
`now` is the clock reading the service goroutine took at line 197. -/
def certTask (w : World) (s : service) (now : Int) (certPath : String) : TaskResult :=
  match w.osOpen certPath with
  | OpenResult.notExist => ⟨[LogEvent.certPathDoesNotExist certPath s.name], [], false⟩
  | OpenResult.otherError => ⟨[LogEvent.couldNotOpen certPath s.name], [], false⟩
  | OpenResult.opened =>
    match w.ioReadAll certPath with
    | none => ⟨[LogEvent.couldNotRead certPath s.name], [], false⟩
    | some certContent =>
      match w.pemDecode certContent with
      | none => ⟨[LogEvent.couldNotDecodePEM certPath s.name], [], false⟩
      | some certDER =>
        match w.parseCertificate certDER with
        | none => ⟨[LogEvent.couldNotParseDER certPath s.name], [], false⟩
        | some expiration =>
          checkExpiration w s now certPath expiration
            [LogEvent.readAndDecoded certPath s.name,
             LogEvent.ingested certPath expiration s.name]

/-- The goroutine of one service (lines 195 to 352): one evaluation task
per certificate path, all with the same `now`. -/
def serviceTasks (w : World) (now : Int) (s : service) : List TaskResult :=
  s.certPaths.map (certTask w s now)

/-- All evaluation tasks of a run (lines 193 to 354), listed service by
service and path by path; each service comes with the clock reading of its
goroutine. -/
def allTasks (w : World) (services : List (service × Int)) : List TaskResult :=
  services.flatMap (fun sn => serviceTasks w sn.2 sn.1)

/-- The messages put on `notificationsChan` during a run, grouped by task
in listing order (the order of arrival is up to the scheduler), or `none`
when some task panics and takes the process down. -/
def runAlerts (w : World) (services : List (service × Int)) :
    Option (List messageToSend) :=
  if (allTasks w services).any (fun r => r.panicked) then none
  else some ((allTasks w services).flatMap (fun r => r.sent))

/-! ## `src/main.go`: the notification dispatcher and the end of the run

The goroutines of `main` as a transition system. A state records where
`main` and the dispatcher goroutine (lines 164 to 189) stand, the channel
and WaitGroup they synchronise on, and the send goroutines in flight; an
action is one atomic move of one goroutine. `notificationsChan` is
unbuffered, so a send of line 347 and the receive of line 170 are one
move. -/

/-- Where `main` stands after starting the goroutines. -/
inductive MainPc where
  /-- blocked in `serviceWg.Wait()` (line 354) -/
  | waitingForServices
  /-- past `close(notificationsChan)`, blocked in `<-notificationsSent`
  (lines 355 and 356) -/
  | waitingForDispatcher
  /-- past `log.Info("Finished run")` (line 357): the run returns -/
  | finished
  deriving DecidableEq, Repr

/-- Where the dispatcher goroutine stands. -/
inductive DispatcherPc where
  /-- blocked in the receive of `for m := range notificationsChan` -/
  | ranging
  /-- holds a received `m`, before `notificationsWg.Add(1)` (line 171) -/
  | received
  /-- past `Add(1)`, before the `go` statement of line 172 -/
  | added
  /-- the loop has ended, blocked in `notificationsWg.Wait()` (line 187) -/
  | waiting
  /-- `Wait()` has returned, before `close(notificationsSent)` -/
  | waited
  /-- past `close(notificationsSent)` (line 188) -/
  | signalled
  deriving DecidableEq, Repr

/-- A state of the run. -/
structure Pipeline where
  /-- a goroutine has panicked and the process is gone -/
  crashed : Bool
  /-- per evaluation goroutine still running, the messages it has yet to
  put on `notificationsChan`; `none` once it has returned -/
  producers : List (Option Nat)
  mainPc : MainPc
  /-- `notificationsChan` has been closed -/
  chanClosed : Bool
  dispatcherPc : DispatcherPc
  /-- the counter of `notificationsWg` -/
  wg : Nat
  /-- send goroutines inside `m.Message.sendMessage` (line 174) -/
  sending : Nat
  /-- send goroutines past `sendMessage`, before the deferred `Done()` -/
  logging : Nat
  /-- messages the dispatcher has received from the channel -/
  emitted : Nat
  /-- messages whose `sendMessage` call has returned, with or without error -/
  attempted : Nat
  /-- `notificationsSent` has been closed: the completion signal -/
  sentClosed : Bool
  deriving DecidableEq, Repr

/-- One atomic move of one goroutine. -/
inductive Action where
  /-- evaluation goroutine `i` sends on the channel (line 347) and the
  dispatcher receives (line 170); a send on a closed channel panics -/
  | emit (i : Nat)
  /-- evaluation goroutine `i` has nothing left to send and returns -/
  | taskReturns (i : Nat)
  /-- `notificationsWg.Add(1)` (line 171) -/
  | wgAdd
  /-- the `go` statement of line 172 starts the send goroutine -/
  | spawn
  /-- `sendMessage` returns in some send goroutine (line 174) -/
  | sendReturns
  /-- the deferred `notificationsWg.Done()` of some send goroutine; `Done`
  on a zero counter panics -/
  | sendDone
  /-- `serviceWg.Wait()` returns and `main` closes the channel (line 355) -/
  | closeIntake
  /-- the `range` loop ends on the closed channel -/
  | rangeEnds
  /-- `notificationsWg.Wait()` returns (line 187) -/
  | waitReturns
  /-- `close(notificationsSent)` (line 188) -/
  | closeSent
  /-- `<-notificationsSent` returns and `main` logs the end (lines 356, 357) -/
  | finish
  /-- a goroutine panics (`template.Must`, line 324) -/
  | crash
  deriving DecidableEq, Repr

/-- The state after lines 162 to 353: all goroutines started, one entry of
`producers` per evaluation goroutine. -/
def Pipeline.start (producers : List Nat) : Pipeline :=
  { crashed := false
    producers := producers.map some
    mainPc := MainPc.waitingForServices
    chanClosed := false
    dispatcherPc := DispatcherPc.ranging
    wg := 0
    sending := 0
    logging := 0
    emitted := 0
    attempted := 0
    sentClosed := false }

/-- The move `a` from state `s`, `none` when the goroutine concerned is
blocked or elsewhere. -/
def Pipeline.step (s : Pipeline) (a : Action) : Option Pipeline :=
  if s.crashed then none
  else
    match a with
    | Action.emit i =>
      match s.producers.get? i with
      | some (some (n + 1)) =>
        if s.chanClosed then some { s with crashed := true }
        else if s.dispatcherPc = DispatcherPc.ranging then
          some { s with producers := s.producers.set i (some n)
                        dispatcherPc := DispatcherPc.received
                        emitted := s.emitted + 1 }
        else none
      | _ => none
    | Action.taskReturns i =>
      match s.producers.get? i with
      | some (some 0) => some { s with producers := s.producers.set i none }
      | _ => none
    | Action.wgAdd =>
      if s.dispatcherPc = DispatcherPc.received then
        some { s with wg := s.wg + 1, dispatcherPc := DispatcherPc.added }
      else none
    | Action.spawn =>
      if s.dispatcherPc = DispatcherPc.added then
        some { s with sending := s.sending + 1, dispatcherPc := DispatcherPc.ranging }
      else none
    | Action.sendReturns =>
      if 0 < s.sending then
        some { s with sending := s.sending - 1, logging := s.logging + 1,
                      attempted := s.attempted + 1 }
      else none
    | Action.sendDone =>
      if 0 < s.logging then
        if 0 < s.wg then some { s with logging := s.logging - 1, wg := s.wg - 1 }
        else some { s with crashed := true }
      else none
    | Action.closeIntake =>
      if s.mainPc = MainPc.waitingForServices ∧ s.producers.all Option.isNone then
        some { s with chanClosed := true, mainPc := MainPc.waitingForDispatcher }
      else none
    | Action.rangeEnds =>
      if s.dispatcherPc = DispatcherPc.ranging ∧ s.chanClosed then
        some { s with dispatcherPc := DispatcherPc.waiting }
      else none
    | Action.waitReturns =>
      if s.dispatcherPc = DispatcherPc.waiting ∧ s.wg = 0 then
        some { s with dispatcherPc := DispatcherPc.waited }
      else none
    | Action.closeSent =>
      if s.dispatcherPc = DispatcherPc.waited then
        some { s with dispatcherPc := DispatcherPc.signalled, sentClosed := true }
      else none
    | Action.finish =>
      if s.mainPc = MainPc.waitingForDispatcher ∧ s.sentClosed then
        some { s with mainPc := MainPc.finished }
      else none
    | Action.crash => some { s with crashed := true }

/-- The state reached from `s` by a schedule, `none` when some move of it
is not possible. -/
def Pipeline.run (s : Pipeline) : List Action → Option Pipeline
  | [] => some s
  | a :: rest =>
    match s.step a with
    | none => none
    | some t => t.run rest

/-- What holds in every state of a run: the WaitGroup counter covers every
send goroutine not yet done and the message the dispatcher is about to
hand over, every received message is held by the dispatcher, in flight or
attempted, and the dispatcher leaves its loop only on the closed channel
and signals only past a zero counter. -/
def Pipeline.Inv (s : Pipeline) : Prop :=
  s.wg = s.sending + s.logging + (if s.dispatcherPc = DispatcherPc.added then 1 else 0) ∧
  s.emitted = s.attempted + s.sending +
    (if s.dispatcherPc = DispatcherPc.received ∨ s.dispatcherPc = DispatcherPc.added
      then 1 else 0) ∧
  ((s.dispatcherPc = DispatcherPc.waiting ∨ s.dispatcherPc = DispatcherPc.waited ∨
    s.dispatcherPc = DispatcherPc.signalled) → s.chanClosed = true) ∧
  ((s.dispatcherPc = DispatcherPc.waited ∨ s.dispatcherPc = DispatcherPc.signalled) →
    s.wg = 0) ∧
  (s.sentClosed = true → s.dispatcherPc = DispatcherPc.signalled) ∧
  (s.mainPc = MainPc.finished → s.sentClosed = true)

/-! ## Vocabulary of the statements -/

/-- The CertificateReader of the specification: the expiration instant the
evaluation task obtains from a path through `os.Open`, `io.ReadAll`,
`pem.Decode` and `x509.ParseCertificate` (lines 210 to 269), `none` when
one of the four fails. -/
def certNotAfter (w : World) (certPath : String) : Option Int :=
  match w.osOpen certPath with
  | OpenResult.opened =>
    match w.ioReadAll certPath with
    | none => none
    | some certContent =>
      match w.pemDecode certContent with
      | none => none
      | some certDER => w.parseCertificate certDER
  | _ => none

/-- A log line that records a verdict of the expiry check. -/
def LogEvent.isVerdict : LogEvent → Bool
  | LogEvent.willExpire _ _ _ => true
  | LogEvent.willNotExpire _ _ _ => true
  | _ => false

/-- A rational `H` on a binary grid `2 ^ e` fine enough to hold the
integers (`e ≤ 0`), above the subnormal range, with `H` within 53 bits of
the grid: what the analysis of `Hours() / 24.0` needs of the float64 value
of `Hours()`. -/
def OnGrid (H : ℚ) : Prop :=
  ∃ (e : ℤ) (N : ℤ), -1070 ≤ e ∧ e ≤ 0 ∧ H = N * 2 ^ e ∧ |H| ≤ 2 ^ (e + 53)

/-- A schedule of the run with one evaluation goroutine that emits two
alerts: both are received and handed to send goroutines, the channel is
closed once the evaluation goroutine has returned, and the second send
ends after the dispatcher has left its loop. -/
def sampleSchedule : List Action :=
  [Action.emit 0, Action.wgAdd, Action.spawn, Action.emit 0, Action.wgAdd, Action.spawn,
   Action.sendReturns, Action.taskReturns 0, Action.closeIntake, Action.rangeEnds,
   Action.sendDone, Action.sendReturns, Action.sendDone, Action.waitReturns,
   Action.closeSent, Action.finish]

/-- A configuration and file system with one readable certificate
`/etc/grid/alpha.pem` expiring at `notAfter`, a template file `alert.tmpl`
with content `template`, and lifetime strings `serviceLifetime` for the
service `namedServices.Alpha` and `globalLifetime` for the global scope.
The template text `{{.ServiceName` (an unclosed action) does not parse. -/
def sampleWorld (test : Bool) (notAfter : Int) (template : Option String)
    (serviceLifetime globalLifetime : String) : World where
  getBool := fun k => k == "test" && test
  getString := fun k =>
    if k = "global.template" then "alert.tmpl"
    else if k = "namedServices.Alpha.minCertLifetime" then serviceLifetime
    else if k = "global.minCertLifetime" then globalLifetime
    else if k = "email.from" then "certs@example.org"
    else if k = "email.smtphost" then "smtp.example.org"
    else if k = "notifications.slack_alerts_url" then "https://hooks.example.org/T0"
    else ""
  getStringSlice := fun k =>
    if k = "notifications.admin_email" then ["admin@example.org"]
    else if k = "namedServices.Alpha.certPaths" then ["/etc/grid/alpha.pem"]
    else []
  getInt := fun _ => 25
  osOpen := fun path =>
    if path = "/etc/grid/alpha.pem" then OpenResult.opened else OpenResult.notExist
  ioReadAll := fun _ => some [45, 45, 45]
  pemDecode := fun _ => some [48, 130]
  parseCertificate := fun _ => some notAfter
  osReadFile := fun path => if path = "alert.tmpl" then template else none
  templateParse := fun text => text != "\x7b\x7b.ServiceName"
  templateExecute := fun text args =>
    if text = "ServiceName CertPath" then some (args.ServiceName ++ " " ++ args.CertPath)
    else none
  formatRFC822 := fun _ => "04 Nov 26 16:00 UTC"

/-- The service Alpha of the sample configuration with a lifetime of `n`
nanoseconds. -/
def alpha (n : Int) : service := ⟨"Alpha", ["/etc/grid/alpha.pem"], n⟩

/-! ## The evaluation task: helper lemmas -/

theorem expiring_iff (now minCertLifetime expiration : Int) :
    expiring now minCertLifetime expiration = true ↔ expiration < now + minCertLifetime := by
  simp [expiring, timeAfter, timeAdd]

theorem certTask_of_read {w : World} {certPath : String} {expiration : Int}
    (h : certNotAfter w certPath = some expiration) (s : service) (now : Int) :
    certTask w s now certPath =
      checkExpiration w s now certPath expiration
        [LogEvent.readAndDecoded certPath s.name,
         LogEvent.ingested certPath expiration s.name] := by
  unfold certNotAfter at h
  unfold certTask
  cases ho : w.osOpen certPath <;> simp only [ho] at h ⊢ <;> try contradiction
  cases hr : w.ioReadAll certPath <;> simp only [hr] at h ⊢ <;> try contradiction
  rename_i c
  cases hp : w.pemDecode c <;> simp only [hp] at h ⊢ <;> try contradiction
  simp only [h]

theorem certTask_of_unread {w : World} {certPath : String}
    (h : certNotAfter w certPath = none) (s : service) (now : Int) :
    (certTask w s now certPath).sent = [] ∧
      (certTask w s now certPath).panicked = false ∧
      (certTask w s now certPath).log.all (fun e => !e.isVerdict) = true := by
  unfold certNotAfter at h
  unfold certTask
  cases ho : w.osOpen certPath <;> simp only [ho] at h ⊢ <;> try simp [LogEvent.isVerdict]
  cases hr : w.ioReadAll certPath <;> simp only [hr] at h ⊢ <;> try simp [LogEvent.isVerdict]
  rename_i c
  cases hp : w.pemDecode c <;> simp only [hp] at h ⊢ <;> try simp [LogEvent.isVerdict]
  simp [h, LogEvent.isVerdict]

theorem notify_sent_nil_or_pair (w : World) (s : service) (now : Int) (certPath : String)
    (expiration : Int) (log : List LogEvent) :
    (notify w s now certPath expiration log).sent = [] ∨
      ∃ e u text, (notify w s now certPath expiration log).sent =
        [⟨e, text, s.name⟩, ⟨u, text, s.name⟩] := by
  unfold notify
  cases hf : w.osReadFile (w.getString "global.template") <;> simp only [hf]
  · simp
  rename_i data
  cases hp : w.templateParse data
  · simp
  cases hx : w.templateExecute data ⟨s.name, certPath, numDays expiration now⟩
  · simp
  · right
    rename_i text
    exact ⟨_, _, text, rfl⟩

theorem checkExpiration_sent_ne_nil {w : World} {s : service} {now : Int} {certPath : String}
    {expiration : Int} {log : List LogEvent}
    (h : (checkExpiration w s now certPath expiration log).sent ≠ []) :
    expiring now s.minCertLifetime expiration = true ∧ w.getBool "test" = false := by
  unfold checkExpiration at h
  cases he : expiring now s.minCertLifetime expiration with
  | false => simp [he] at h
  | true =>
    cases ht : w.getBool "test" with
    | false => simp
    | true => simp [he, ht] at h

theorem certTask_congr (w : World) (s t : service) (now : Int) (certPath : String)
    (hn : s.name = t.name) (hm : s.minCertLifetime = t.minCertLifetime) :
    certTask w s now certPath = certTask w t now certPath := by
  simp only [certTask, checkExpiration, notify, hn, hm]

theorem allTasks_split (w : World) (pre post : List (service × Int)) (name : String)
    (minLife : Int) (p1 p2 : List String) (path : String) (now : Int) :
    ∃ A B : List TaskResult,
      allTasks w (pre ++ (⟨name, p1 ++ path :: p2, minLife⟩, now) :: post) =
        A ++ certTask w ⟨name, p1 ++ path :: p2, minLife⟩ now path :: B ∧
      allTasks w (pre ++ (⟨name, p1 ++ p2, minLife⟩, now) :: post) = A ++ B := by
  refine ⟨allTasks w pre ++ p1.map (certTask w ⟨name, p1 ++ p2, minLife⟩ now),
    p2.map (certTask w ⟨name, p1 ++ p2, minLife⟩ now) ++ allTasks w post, ?_, ?_⟩
  · have hc : certTask w ⟨name, p1 ++ path :: p2, minLife⟩ now =
        certTask w ⟨name, p1 ++ p2, minLife⟩ now := by
      funext q
      exact certTask_congr w _ _ now q rfl rfl
    simp [allTasks, serviceTasks, hc]
  · simp [allTasks, serviceTasks]

/-! ## The evaluation task: claims -/

/-- C1: an evaluation task puts an alert on the notification channel only
if the certificate was read, `now + minCertLifetime` is strictly after its
`notAfter`, and test mode is off; no alert when `notAfter` is strictly after
`now + minCertLifetime`, and no alert in test mode whatever the check says. -/
theorem alert_only_if_expiring_and_not_test (w : World) (s : service) (now : Int)
    (certPath : String) :
    ((certTask w s now certPath).sent ≠ [] →
      ∃ notAfter, certNotAfter w certPath = some notAfter ∧
        timeAfter (timeAdd now s.minCertLifetime) notAfter = true ∧
        notAfter < now + s.minCertLifetime ∧ w.getBool "test" = false) ∧
    (∀ notAfter, certNotAfter w certPath = some notAfter →
      now + s.minCertLifetime < notAfter → (certTask w s now certPath).sent = []) ∧
    (w.getBool "test" = true → (certTask w s now certPath).sent = []) := by
  refine ⟨fun h => ?_, fun notAfter hr hlt => ?_, fun ht => ?_⟩
  · cases hr : certNotAfter w certPath with
    | none => exact absurd (certTask_of_unread hr s now).1 h
    | some notAfter =>
      rw [certTask_of_read hr] at h
      have hc := checkExpiration_sent_ne_nil h
      exact ⟨notAfter, rfl, hc.1, (expiring_iff _ _ _).1 hc.1, hc.2⟩
  · by_contra hne
    rw [certTask_of_read hr] at hne
    have hc := (expiring_iff _ _ _).1 (checkExpiration_sent_ne_nil hne).1
    omega
  · by_contra hne
    cases hr : certNotAfter w certPath with
    | none => exact hne (certTask_of_unread hr s now).1
    | some notAfter =>
      rw [certTask_of_read hr] at hne
      have hc := (checkExpiration_sent_ne_nil hne).2
      rw [ht] at hc
      exact Bool.noConfusion hc

/-- Witness of C1: the Alpha certificate expiring in five days under a
thirty-day lifetime, outside test mode, raises alerts, and the theorem
yields the strict comparison and the test flag. -/
theorem alert_only_if_expiring_and_not_test_witness :
    (certTask (sampleWorld false (5 * 24 * Hour) (some "ServiceName CertPath") "" "")
        (alpha (30 * 24 * Hour)) 0 "/etc/grid/alpha.pem").sent ≠ [] ∧
      ∃ notAfter,
        certNotAfter (sampleWorld false (5 * 24 * Hour) (some "ServiceName CertPath") "" "")
          "/etc/grid/alpha.pem" = some notAfter ∧
        timeAfter (timeAdd 0 (alpha (30 * 24 * Hour)).minCertLifetime) notAfter = true ∧
        notAfter < 0 + (alpha (30 * 24 * Hour)).minCertLifetime ∧
        (sampleWorld false (5 * 24 * Hour) (some "ServiceName CertPath") "" "").getBool "test"
          = false :=
  ⟨by decide,
   (alert_only_if_expiring_and_not_test
      (sampleWorld false (5 * 24 * Hour) (some "ServiceName CertPath") "" "")
      (alpha (30 * 24 * Hour)) 0 "/etc/grid/alpha.pem").1 (by decide)⟩

/-- C2: for a certificate that was read with `now + minCertLifetime`
strictly after `notAfter`, outside test mode, with the template read,
parsed and executed without error, the task puts exactly two messages on
the channel, first the email then the Slack message, both with the rendered
text and the name of the service. -/
theorem expiring_cert_sends_email_then_slack (w : World) (s : service) (now : Int)
    (certPath : String) (notAfter : Int) (templateData text : String)
    (hread : certNotAfter w certPath = some notAfter)
    (hexp : notAfter < now + s.minCertLifetime)
    (htest : w.getBool "test" = false)
    (hfile : w.osReadFile (w.getString "global.template") = some templateData)
    (hparse : w.templateParse templateData = true)
    (hexec : w.templateExecute templateData ⟨s.name, certPath, numDays notAfter now⟩
      = some text) :
    (certTask w s now certPath).sent =
      [⟨Message.email (w.getString "email.from")
          (w.getStringSlice "notifications.admin_email")
          ("Service Certificates Check (" ++ s.name ++ "), " ++ w.formatRFC822 now)
          (w.getString "email.smtphost") (w.getInt "email.smtpport") "", text, s.name⟩,
       ⟨Message.slackMessage (w.getString "notifications.slack_alerts_url"), text, s.name⟩] ∧
    (certTask w s now certPath).panicked = false := by
  have he : expiring now s.minCertLifetime notAfter = true := (expiring_iff _ _ _).2 hexp
  have hp : configNotificationsPrefix w = "notifications." := by
    simp [configNotificationsPrefix, htest]
  have ha : "notifications." ++ "admin_email" = "notifications.admin_email" := by decide
  have hs : "notifications." ++ "slack_alerts_url" = "notifications.slack_alerts_url" := by
    decide
  rw [certTask_of_read hread]
  simp [checkExpiration, he, htest, notify, hfile, hparse, hexec, hp, ha, hs]

/-- Witness of C2: service Alpha, one certificate expiring in five days,
lifetime thirty days. -/
theorem expiring_cert_sends_email_then_slack_witness :
    (certTask (sampleWorld false (5 * 24 * Hour) (some "ServiceName CertPath") "" "")
        (alpha (30 * 24 * Hour)) 0 "/etc/grid/alpha.pem").sent =
      [⟨Message.email "certs@example.org" ["admin@example.org"]
          "Service Certificates Check (Alpha), 04 Nov 26 16:00 UTC"
          "smtp.example.org" 25 "", "Alpha /etc/grid/alpha.pem", "Alpha"⟩,
       ⟨Message.slackMessage "https://hooks.example.org/T0",
          "Alpha /etc/grid/alpha.pem", "Alpha"⟩] ∧
    (certTask (sampleWorld false (5 * 24 * Hour) (some "ServiceName CertPath") "" "")
        (alpha (30 * 24 * Hour)) 0 "/etc/grid/alpha.pem").panicked = false :=
  expiring_cert_sends_email_then_slack
    (sampleWorld false (5 * 24 * Hour) (some "ServiceName CertPath") "" "")
    (alpha (30 * 24 * Hour)) 0 "/etc/grid/alpha.pem" (5 * 24 * Hour)
    "ServiceName CertPath" "Alpha /etc/grid/alpha.pem"
    (by decide) (by decide) (by decide) (by decide) (by decide) (by decide)

/-- C3, as stated, fails at the tie: with `now = 0`, a lifetime of 5 and
`notAfter = 5`, `notAfter` is at or before `now + minCertLifetime`, yet the
check of line 277 is false and the task logs "will not expire" and sends
nothing. -/
theorem tie_is_judged_not_expiring :
    (5 : Int) ≤ 0 + (alpha 5).minCertLifetime ∧
    expiring 0 (alpha 5).minCertLifetime 5 = false ∧
    certTask (sampleWorld false 5 (some "ServiceName CertPath") "" "") (alpha 5) 0
        "/etc/grid/alpha.pem" =
      ⟨[LogEvent.readAndDecoded "/etc/grid/alpha.pem" "Alpha",
        LogEvent.ingested "/etc/grid/alpha.pem" 5 "Alpha",
        LogEvent.willNotExpire "/etc/grid/alpha.pem" 5 "Alpha"], [], false⟩ := by
  decide

/-- C3, amended: the expiry check holds exactly when `notAfter` is strictly
before `now + minCertLifetime`. A certificate read with such a `notAfter`
is logged as expiring and, outside test mode, goes on to the notification
step; at the tie `notAfter = now + minCertLifetime` and beyond, the task
logs "will not expire" and ends without sending. -/
theorem expiring_iff_strictly_before (w : World) (s : service) (now : Int)
    (certPath : String) (notAfter : Int) :
    (expiring now s.minCertLifetime notAfter = true ↔ notAfter < now + s.minCertLifetime) ∧
    (certNotAfter w certPath = some notAfter → notAfter < now + s.minCertLifetime →
      w.getBool "test" = false →
      certTask w s now certPath =
        notify w s now certPath notAfter
          [LogEvent.readAndDecoded certPath s.name,
           LogEvent.ingested certPath notAfter s.name,
           LogEvent.willExpire certPath notAfter s.name]) ∧
    (certNotAfter w certPath = some notAfter → now + s.minCertLifetime ≤ notAfter →
      certTask w s now certPath =
        ⟨[LogEvent.readAndDecoded certPath s.name,
          LogEvent.ingested certPath notAfter s.name,
          LogEvent.willNotExpire certPath notAfter s.name], [], false⟩) := by
  refine ⟨expiring_iff _ _ _, fun hr hlt ht => ?_, fun hr hle => ?_⟩
  · have he : expiring now s.minCertLifetime notAfter = true := (expiring_iff _ _ _).2 hlt
    rw [certTask_of_read hr]
    simp [checkExpiration, he, ht]
  · have he : expiring now s.minCertLifetime notAfter = false := by
      cases h : expiring now s.minCertLifetime notAfter with
      | false => rfl
      | true =>
        have := (expiring_iff _ _ _).1 h
        omega
    rw [certTask_of_read hr]
    simp [checkExpiration, he]

/-- Witness of C3 amended: the Alpha certificate expiring in five days
under a thirty-day lifetime takes the notification step. -/
theorem expiring_iff_strictly_before_witness :
    certTask (sampleWorld false (5 * 24 * Hour) (some "ServiceName CertPath") "" "")
        (alpha (30 * 24 * Hour)) 0 "/etc/grid/alpha.pem" =
      notify (sampleWorld false (5 * 24 * Hour) (some "ServiceName CertPath") "" "")
        (alpha (30 * 24 * Hour)) 0 "/etc/grid/alpha.pem" (5 * 24 * Hour)
        [LogEvent.readAndDecoded "/etc/grid/alpha.pem" (alpha (30 * 24 * Hour)).name,
         LogEvent.ingested "/etc/grid/alpha.pem" (5 * 24 * Hour) (alpha (30 * 24 * Hour)).name,
         LogEvent.willExpire "/etc/grid/alpha.pem" (5 * 24 * Hour)
           (alpha (30 * 24 * Hour)).name] :=
  (expiring_iff_strictly_before
    (sampleWorld false (5 * 24 * Hour) (some "ServiceName CertPath") "" "")
    (alpha (30 * 24 * Hour)) 0 "/etc/grid/alpha.pem" (5 * 24 * Hour)).2.1
    (by decide) (by decide) (by decide)

/-- C8 at the failing input: the template file holds `{{.ServiceName`, a
text that does not parse. The task for the expiring Alpha certificate
panics in `template.Must` instead of logging and returning, and the run has
no alert outcome; with a template file that cannot be read, or a template
whose execution fails, the same task returns without alert and without
panic. -/
theorem unparsable_template_panics :
    (certTask (sampleWorld false (5 * 24 * Hour) (some "\x7b\x7b.ServiceName") "" "")
        (alpha (30 * 24 * Hour)) 0 "/etc/grid/alpha.pem").panicked = true ∧
    runAlerts (sampleWorld false (5 * 24 * Hour) (some "\x7b\x7b.ServiceName") "" "")
        [(alpha (30 * 24 * Hour), 0)] = none ∧
    certTask (sampleWorld false (5 * 24 * Hour) none "" "")
        (alpha (30 * 24 * Hour)) 0 "/etc/grid/alpha.pem" =
      ⟨[LogEvent.readAndDecoded "/etc/grid/alpha.pem" "Alpha",
        LogEvent.ingested "/etc/grid/alpha.pem" (5 * 24 * Hour) "Alpha",
        LogEvent.willExpire "/etc/grid/alpha.pem" (5 * 24 * Hour) "Alpha",
        LogEvent.couldNotReadTemplate "Alpha"], [], false⟩ ∧
    certTask (sampleWorld false (5 * 24 * Hour) (some "NumDays") "" "")
        (alpha (30 * 24 * Hour)) 0 "/etc/grid/alpha.pem" =
      ⟨[LogEvent.readAndDecoded "/etc/grid/alpha.pem" "Alpha",
        LogEvent.ingested "/etc/grid/alpha.pem" (5 * 24 * Hour) "Alpha",
        LogEvent.willExpire "/etc/grid/alpha.pem" (5 * 24 * Hour) "Alpha",
        LogEvent.couldNotExecuteTemplate "Alpha"], [], false⟩ := by
  decide

/-- C9: a certificate path that cannot be opened, read, PEM-decoded or
parsed yields a task with no verdict line, no alert and no panic, and the
alerts of the run are the same as when that path is taken out of the
configuration: every other task, of the same or another service, is
unchanged. -/
theorem read_failure_is_isolated (w : World) (pre post : List (service × Int))
    (name : String) (minLife : Int) (p1 p2 : List String) (path : String) (now : Int)
    (hfail : certNotAfter w path = none) :
    (certTask w ⟨name, p1 ++ path :: p2, minLife⟩ now path).sent = [] ∧
    (certTask w ⟨name, p1 ++ path :: p2, minLife⟩ now path).panicked = false ∧
    (certTask w ⟨name, p1 ++ path :: p2, minLife⟩ now path).log.all
      (fun e => !e.isVerdict) = true ∧
    (∃ A B : List TaskResult,
      allTasks w (pre ++ (⟨name, p1 ++ path :: p2, minLife⟩, now) :: post) =
        A ++ certTask w ⟨name, p1 ++ path :: p2, minLife⟩ now path :: B ∧
      allTasks w (pre ++ (⟨name, p1 ++ p2, minLife⟩, now) :: post) = A ++ B) ∧
    runAlerts w (pre ++ (⟨name, p1 ++ path :: p2, minLife⟩, now) :: post) =
      runAlerts w (pre ++ (⟨name, p1 ++ p2, minLife⟩, now) :: post) := by
  have hu := certTask_of_unread hfail ⟨name, p1 ++ path :: p2, minLife⟩ now
  obtain ⟨A, B, hA, hB⟩ := allTasks_split w pre post name minLife p1 p2 path now
  refine ⟨hu.1, hu.2.1, hu.2.2, ⟨A, B, hA, hB⟩, ?_⟩
  unfold runAlerts
  rw [hA, hB]
  simp [hu.1, hu.2.1]

/-- Witness of C9: service Alpha with the missing path
`/etc/grid/missing.pem` listed before its readable certificate. -/
theorem read_failure_is_isolated_witness :
    runAlerts (sampleWorld false (5 * 24 * Hour) (some "ServiceName CertPath") "" "")
        ([] ++ (⟨"Alpha", [] ++ "/etc/grid/missing.pem" :: ["/etc/grid/alpha.pem"],
          30 * 24 * Hour⟩, 0) :: []) =
      runAlerts (sampleWorld false (5 * 24 * Hour) (some "ServiceName CertPath") "" "")
        ([] ++ (⟨"Alpha", [] ++ ["/etc/grid/alpha.pem"], 30 * 24 * Hour⟩, 0) :: []) :=
  (read_failure_is_isolated
    (sampleWorld false (5 * 24 * Hour) (some "ServiceName CertPath") "" "")
    [] [] "Alpha" (30 * 24 * Hour) [] ["/etc/grid/alpha.pem"] "/etc/grid/missing.pem" 0
    (by decide)).2.2.2.2

/-! ## `newServiceFromConfig` -/

theorem parseDuration_default :
    parseDuration defaultHostCertLifetime = some (720 * Hour) := by
  decide

theorem parseDuration_empty : parseDuration "" = none := by
  decide

/-- The configured string `newServiceFromConfig` parses: the service-scoped
one when it is not empty, the global one otherwise. -/
theorem minCertLifetime_eq (w : World) (serviceKey overrideName : String) :
    (newServiceFromConfig w serviceKey overrideName).minCertLifetime =
      match parseDuration
        (if w.getString (serviceKey ++ ".minCertLifetime") = ""
          then w.getString "global.minCertLifetime"
          else w.getString (serviceKey ++ ".minCertLifetime")) with
      | some d => d
      | none => 720 * Hour := by
  unfold newServiceFromConfig
  by_cases h : w.getString (serviceKey ++ ".minCertLifetime") = ""
  · simp only [h, if_true, parseDuration_default, Option.getD_some]
  · simp only [h, if_false, parseDuration_default, Option.getD_some]

/-- C5, as stated, fails: with the service-scoped string `abc` (which does
not parse) and the global string `24h` (which does), the lifetime of the
service is the default 720 hours, not the global 24 hours. -/
theorem unparsable_service_lifetime_skips_global :
    parseDuration "abc" = none ∧
    parseDuration "24h" = some (24 * Hour) ∧
    (newServiceFromConfig
        (sampleWorld false 0 none "abc" "24h") "namedServices.Alpha" "Alpha").minCertLifetime
      = 720 * Hour ∧
    (newServiceFromConfig
        (sampleWorld false 0 none "abc" "24h") "namedServices.Alpha" "Alpha").minCertLifetime
      ≠ 24 * Hour := by
  decide

/-- C5, amended: the service-scoped string, when present, is the only one
parsed: its value is taken if it parses, and the hardcoded default of 720
hours if it does not, whatever the global string. The global string is
parsed only when the service-scoped one is empty, with the hardcoded
default taken when the global one does not parse. -/
theorem lifetime_fallback_chain (w : World) (serviceKey overrideName : String) :
    (w.getString (serviceKey ++ ".minCertLifetime") ≠ "" →
      (∀ d, parseDuration (w.getString (serviceKey ++ ".minCertLifetime")) = some d →
        (newServiceFromConfig w serviceKey overrideName).minCertLifetime = d) ∧
      (parseDuration (w.getString (serviceKey ++ ".minCertLifetime")) = none →
        (newServiceFromConfig w serviceKey overrideName).minCertLifetime = 720 * Hour)) ∧
    (w.getString (serviceKey ++ ".minCertLifetime") = "" →
      (∀ d, parseDuration (w.getString "global.minCertLifetime") = some d →
        (newServiceFromConfig w serviceKey overrideName).minCertLifetime = d) ∧
      (parseDuration (w.getString "global.minCertLifetime") = none →
        (newServiceFromConfig w serviceKey overrideName).minCertLifetime = 720 * Hour)) := by
  rw [minCertLifetime_eq]
  refine ⟨fun h => ?_, fun h => ?_⟩
  · simp only [h, if_false]
    exact ⟨fun d hd => by rw [hd], fun hn => by rw [hn]⟩
  · simp only [h, if_true]
    exact ⟨fun d hd => by rw [hd], fun hn => by rw [hn]⟩

/-- Witness of C5 amended: service string `abc`, global string `24h`. -/
theorem lifetime_fallback_chain_witness :
    (newServiceFromConfig
        (sampleWorld false 0 none "abc" "24h") "namedServices.Alpha" "Alpha").minCertLifetime
      = 720 * Hour :=
  ((lifetime_fallback_chain (sampleWorld false 0 none "abc" "24h")
    "namedServices.Alpha" "Alpha").1 (by decide)).2 (by decide)

/-- C6: with the lifetime string empty at the service scope and at the
global scope, the service gets the hardcoded default `720h`, which is 720
hours, exactly thirty days. -/
theorem missing_lifetime_defaults_to_thirty_days (w : World)
    (serviceKey overrideName : String)
    (hservice : w.getString (serviceKey ++ ".minCertLifetime") = "")
    (hglobal : w.getString "global.minCertLifetime" = "") :
    (newServiceFromConfig w serviceKey overrideName).minCertLifetime = 720 * Hour ∧
    parseDuration defaultHostCertLifetime = some (720 * Hour) ∧
    720 * Hour = 30 * (24 * Hour) := by
  refine ⟨?_, parseDuration_default, by decide⟩
  rw [minCertLifetime_eq]
  simp only [hservice, hglobal, if_true, parseDuration_empty]

/-- Witness of C6: the sample configuration with both strings empty. -/
theorem missing_lifetime_defaults_to_thirty_days_witness :
    (newServiceFromConfig
        (sampleWorld false 0 none "" "") "namedServices.Alpha" "Alpha").minCertLifetime
      = 720 * Hour ∧
    parseDuration defaultHostCertLifetime = some (720 * Hour) ∧
    720 * Hour = 30 * (24 * Hour) :=
  missing_lifetime_defaults_to_thirty_days (sampleWorld false 0 none "" "")
    "namedServices.Alpha" "Alpha" (by decide) (by decide)

/-- C7, as stated, fails: the service-scoped string `-5h` gives a service
whose lifetime is minus five hours, and the global string `0s` one whose
lifetime is zero. -/
theorem configured_lifetime_may_be_nonpositive :
    (newServiceFromConfig
        (sampleWorld false 0 none "-5h" "") "namedServices.Alpha" "Alpha").minCertLifetime
      = -(5 * Hour) ∧
    ¬ 0 < (newServiceFromConfig
        (sampleWorld false 0 none "-5h" "") "namedServices.Alpha" "Alpha").minCertLifetime ∧
    (newServiceFromConfig
        (sampleWorld false 0 none "" "0s") "namedServices.Alpha" "Alpha").minCertLifetime
      = 0 := by
  decide

/-- C7, amended: the lifetime of the returned service is positive exactly
when the configured string that is parsed (service-scoped if present, else
global) fails to parse, so that the default of 720 hours is taken, or
parses to a positive duration; a string that parses to zero or to a
negative duration is taken as it is. -/
theorem lifetime_positive_iff (w : World) (serviceKey overrideName : String) :
    0 < (newServiceFromConfig w serviceKey overrideName).minCertLifetime ↔
      ∀ d, parseDuration
        (if w.getString (serviceKey ++ ".minCertLifetime") = ""
          then w.getString "global.minCertLifetime"
          else w.getString (serviceKey ++ ".minCertLifetime")) = some d → 0 < d := by
  rw [minCertLifetime_eq]
  cases h : parseDuration
      (if w.getString (serviceKey ++ ".minCertLifetime") = ""
        then w.getString "global.minCertLifetime"
        else w.getString (serviceKey ++ ".minCertLifetime")) with
  | none =>
    simp only [reduceCtorEq, false_implies, implies_true, iff_true]
    decide
  | some d =>
    simp only [Option.some.injEq]
    exact ⟨fun hd e he => he ▸ hd, fun hall => hall d rfl⟩

/-- Witness of C7 amended: the global string `24h` gives a positive
lifetime. -/
theorem lifetime_positive_iff_witness :
    0 < (newServiceFromConfig
        (sampleWorld false 0 none "" "24h") "namedServices.Alpha" "Alpha").minCertLifetime :=
  (lifetime_positive_iff (sampleWorld false 0 none "" "24h")
    "namedServices.Alpha" "Alpha").2 (by decide)

/-! ## float64 rounding: helper lemmas -/

theorem roundHalfEven_bounds (x : ℚ) :
    ⌊x⌋ ≤ roundHalfEven x ∧ roundHalfEven x ≤ ⌊x⌋ + 1 := by
  unfold roundHalfEven
  split_ifs <;> omega

theorem roundHalfEven_intCast (n : ℤ) : roundHalfEven (n : ℚ) = n := by
  simp [roundHalfEven]

theorem roundHalfEven_mono {x y : ℚ} (h : x ≤ y) : roundHalfEven x ≤ roundHalfEven y := by
  have hf : ⌊x⌋ ≤ ⌊y⌋ := Int.floor_mono h
  have hx := roundHalfEven_bounds x
  have hy := roundHalfEven_bounds y
  rcases hf.lt_or_eq with hlt | heq
  · omega
  · unfold roundHalfEven
    rw [heq]
    split_ifs <;> first | omega | (exfalso; linarith)

theorem roundHalfEven_abs_sub_le (x : ℚ) : |(roundHalfEven x : ℚ) - x| ≤ 1 / 2 := by
  have h1 : (⌊x⌋ : ℚ) ≤ x := Int.floor_le x
  have h2 : x < ⌊x⌋ + 1 := Int.lt_floor_add_one x
  rw [abs_le]
  unfold roundHalfEven
  split_ifs <;> push_cast <;> constructor <;> linarith

theorem roundHalfEven_neg (x : ℚ) : roundHalfEven (-x) = -roundHalfEven x := by
  have h1 : (⌊x⌋ : ℚ) ≤ x := Int.floor_le x
  have h2 : x < ⌊x⌋ + 1 := Int.lt_floor_add_one x
  by_cases hint : (⌊x⌋ : ℚ) = x
  · rw [← hint, ← Int.cast_neg, roundHalfEven_intCast, roundHalfEven_intCast]
  · have hlt : (⌊x⌋ : ℚ) < x := lt_of_le_of_ne h1 hint
    have hfl : ⌊-x⌋ = -⌊x⌋ - 1 := by
      rw [Int.floor_eq_iff]
      push_cast
      constructor <;> linarith
    unfold roundHalfEven
    rw [hfl]
    push_cast
    split_ifs <;> first | omega | (exfalso; linarith)

theorem two_zpow_pos (e : ℤ) : (0 : ℚ) < 2 ^ e := zpow_pos (by norm_num) e

theorem ulpExp_neg (x : ℚ) : ulpExp (-x) = ulpExp x := by
  simp [ulpExp]

theorem float64_zero : float64 0 = 0 := by
  simp [float64]

theorem float64_neg (x : ℚ) : float64 (-x) = -float64 x := by
  unfold float64
  by_cases h : x = 0
  · simp [h]
  · have h' : -x ≠ 0 := neg_ne_zero.mpr h
    rw [if_neg h, if_neg h', ulpExp_neg, neg_div, roundHalfEven_neg]
    push_cast
    ring

theorem float64_abs_sub_le (x : ℚ) : |float64 x - x| ≤ 2 ^ ulpExp x / 2 := by
  unfold float64
  by_cases h : x = 0
  · simp only [h, if_true, sub_zero, abs_zero]
    exact le_of_lt (div_pos (two_zpow_pos _) (by norm_num))
  · rw [if_neg h]
    have hu := two_zpow_pos (ulpExp x)
    have hr := roundHalfEven_abs_sub_le (x / 2 ^ ulpExp x)
    have he : (roundHalfEven (x / 2 ^ ulpExp x) : ℚ) * 2 ^ ulpExp x - x =
        ((roundHalfEven (x / 2 ^ ulpExp x) : ℚ) - x / 2 ^ ulpExp x) * 2 ^ ulpExp x := by
      field_simp
    rw [he, abs_mul, abs_of_pos hu]
    calc |(roundHalfEven (x / 2 ^ ulpExp x) : ℚ) - x / 2 ^ ulpExp x| * 2 ^ ulpExp x
        ≤ 1 / 2 * 2 ^ ulpExp x := mul_le_mul_of_nonneg_right hr hu.le
      _ = 2 ^ ulpExp x / 2 := by ring

theorem float64_grid (x : ℚ) : ∃ n : ℤ, float64 x = n * 2 ^ ulpExp x := by
  unfold float64
  by_cases h : x = 0
  · exact ⟨0, by simp [h]⟩
  · exact ⟨_, by rw [if_neg h]⟩

theorem float64_le_of_grid {x y : ℚ} (h : x ≤ y) (n : ℤ) (hy : y = n * 2 ^ ulpExp x) :
    float64 x ≤ y := by
  unfold float64
  by_cases h0 : x = 0
  · rw [if_pos h0]
    rw [h0] at h
    exact h
  · rw [if_neg h0]
    have hu := two_zpow_pos (ulpExp x)
    have hle : roundHalfEven (x / 2 ^ ulpExp x) ≤ n := by
      have : x / 2 ^ ulpExp x ≤ (n : ℚ) := by
        rw [div_le_iff₀ hu, ← hy]
        exact h
      have := roundHalfEven_mono this
      rwa [roundHalfEven_intCast] at this
    rw [hy]
    exact mul_le_mul_of_nonneg_right (by exact_mod_cast hle) hu.le

theorem float64_ge_of_grid {x y : ℚ} (h : y ≤ x) (n : ℤ) (hy : y = n * 2 ^ ulpExp x) :
    y ≤ float64 x := by
  have h1 : -x ≤ -y := neg_le_neg h
  have h2 := float64_le_of_grid h1 (-n) (by rw [ulpExp_neg, hy]; push_cast; ring)
  rw [float64_neg] at h2
  linarith

theorem exists_grid (m : ℤ) {j e : ℤ} (h : e ≤ j) :
    ∃ n : ℤ, (m : ℚ) * 2 ^ j = n * 2 ^ e := by
  refine ⟨m * 2 ^ (j - e).toNat, ?_⟩
  have hj : j = (j - e).toNat + e := by omega
  conv_lhs => rw [hj]
  rw [zpow_add₀ (by norm_num : (2 : ℚ) ≠ 0), zpow_natCast]
  push_cast
  ring

theorem exists_grid_int (m : ℤ) {e : ℤ} (h : e ≤ 0) : ∃ n : ℤ, (m : ℚ) = n * 2 ^ e := by
  obtain ⟨n, hn⟩ := exists_grid m h
  exact ⟨n, by simpa using hn⟩

theorem ulpExp_le {x : ℚ} (hx : x ≠ 0) {j : ℤ} (hj : -1022 ≤ j) (h : |x| < 2 ^ (j + 1)) :
    ulpExp x ≤ j - 52 := by
  have hpos : 0 < |x| := abs_pos.mpr hx
  have hl : Int.log 2 |x| < j + 1 := by
    rw [← Int.lt_zpow_iff_log_lt (by norm_num) hpos]
    simpa using h
  unfold ulpExp
  have : max (Int.log 2 |x|) (-1022) ≤ j := max_le (by omega) hj
  omega

theorem ulpExp_ge {x : ℚ} {j : ℤ} (h : 2 ^ j ≤ |x|) : j - 52 ≤ ulpExp x := by
  have hpos : 0 < |x| := lt_of_lt_of_le (two_zpow_pos j) h
  have hl : j ≤ Int.log 2 |x| := by
    rw [← Int.zpow_le_iff_le_log (by norm_num) hpos]
    simpa using h
  unfold ulpExp
  have : Int.log 2 |x| ≤ max (Int.log 2 |x|) (-1022) := le_max_left _ _
  omega

theorem ulpExp_ge_min (x : ℚ) : -1074 ≤ ulpExp x := by
  unfold ulpExp
  have : (-1022 : ℤ) ≤ max (Int.log 2 |x|) (-1022) := le_max_right _ _
  omega

theorem abs_lt_zpow_ulpExp (x : ℚ) : |x| < 2 ^ (ulpExp x + 53) := by
  have h := Int.lt_zpow_succ_log_self (R := ℚ) (b := 2) (by norm_num) |x|
  have h2 : Int.log 2 |x| + 1 ≤ ulpExp x + 53 := by
    unfold ulpExp
    have : Int.log 2 |x| ≤ max (Int.log 2 |x|) (-1022) := le_max_left _ _
    omega
  have h3 : (2 : ℚ) ^ (Int.log 2 |x| + 1) ≤ 2 ^ (ulpExp x + 53) :=
    zpow_le_zpow_right₀ (by norm_num) h2
  have h' : |x| < (2 : ℚ) ^ (Int.log 2 |x| + 1) := by simpa using h
  exact lt_of_lt_of_le h' h3

theorem float64_abs_le (x : ℚ) : |float64 x| ≤ 2 ^ (ulpExp x + 53) := by
  have hb := abs_lt_zpow_ulpExp x
  have hg : ∃ n : ℤ, (2 : ℚ) ^ (ulpExp x + 53) = n * 2 ^ ulpExp x := by
    obtain ⟨n, hn⟩ := exists_grid 1 (show ulpExp x ≤ ulpExp x + 53 by omega)
    exact ⟨n, by simpa using hn⟩
  obtain ⟨n, hn⟩ := hg
  rw [abs_lt] at hb
  rw [abs_le]
  constructor
  · exact float64_ge_of_grid (le_of_lt hb.1) (-n) (by rw [hn]; push_cast; ring)
  · exact float64_le_of_grid (le_of_lt hb.2) n hn

theorem float64_le_int {x : ℚ} (K : ℤ) (hx : |x| < 2 ^ (53 : ℤ)) (h : x ≤ K) :
    float64 x ≤ K := by
  by_cases h0 : x = 0
  · rw [h0, float64_zero]
    rw [h0] at h
    exact h
  · have he : ulpExp x ≤ 0 := by
      have := ulpExp_le h0 (j := 52) (by norm_num) (by simpa using hx)
      omega
    obtain ⟨n, hn⟩ := exists_grid_int K he
    exact float64_le_of_grid h n hn

theorem float64_ge_int {x : ℚ} (K : ℤ) (hx : |x| < 2 ^ (53 : ℤ)) (h : (K : ℚ) ≤ x) :
    (K : ℚ) ≤ float64 x := by
  have h1 : -x ≤ ((-K : ℤ) : ℚ) := by push_cast; linarith
  have h2 := float64_le_int (-K) (by rwa [abs_neg]) h1
  rw [float64_neg] at h2
  push_cast at h2
  linarith

theorem float64_intCast (m : ℤ) (hm : |(m : ℚ)| < 2 ^ (53 : ℤ)) : float64 (m : ℚ) = m :=
  le_antisymm (float64_le_int m hm le_rfl) (float64_ge_int m hm le_rfl)

theorem float64_eq_of_near {x : ℚ} {e : ℤ} (n : ℤ) (hlo : 2 ^ (e + 52) ≤ |x|)
    (hhi : |x| < 2 ^ (e + 53)) (he : -1074 ≤ e) (hn : |x / 2 ^ e - n| < 1 / 2) :
    float64 x = n * 2 ^ e := by
  have hx : x ≠ 0 := by
    intro h
    rw [h, abs_zero] at hlo
    exact absurd hlo (not_le.mpr (two_zpow_pos _))
  have h1 : ulpExp x ≤ e := by
    have := ulpExp_le hx (j := e + 52) (by omega) (by rwa [show e + 52 + 1 = e + 53 by ring])
    omega
  have h2 : e ≤ ulpExp x := by
    have := ulpExp_ge hlo
    omega
  have hu : ulpExp x = e := le_antisymm h1 h2
  unfold float64
  rw [if_neg hx, hu]
  have hr := roundHalfEven_abs_sub_le (x / 2 ^ e)
  have hz : roundHalfEven (x / 2 ^ e) = n := by
    have h3 : |((roundHalfEven (x / 2 ^ e) - n : ℤ) : ℚ)| < 1 := by
      push_cast
      calc |(roundHalfEven (x / 2 ^ e) : ℚ) - n|
          = |((roundHalfEven (x / 2 ^ e) : ℚ) - x / 2 ^ e) + (x / 2 ^ e - n)| := by ring_nf
        _ ≤ |(roundHalfEven (x / 2 ^ e) : ℚ) - x / 2 ^ e| + |x / 2 ^ e - n| := abs_add _ _
        _ < 1 := by linarith
    have h4 : |roundHalfEven (x / 2 ^ e) - n| < 1 := by exact_mod_cast h3
    have := Int.abs_lt_one_iff.mp h4
    omega
  rw [hz]

theorem onGrid_float64 {s : ℚ} (hlo : s = 0 ∨ 2 ^ (-94 : ℤ) ≤ |s|) (hhi : |s| < 2 ^ (53 : ℤ)) :
    OnGrid (float64 s) := by
  by_cases h0 : s = 0
  · refine ⟨0, 0, by norm_num, le_rfl, by simp [h0, float64_zero], ?_⟩
    rw [h0, float64_zero, abs_zero]
    exact le_of_lt (two_zpow_pos _)
  · have hl : (2 : ℚ) ^ (-94 : ℤ) ≤ |s| := hlo.resolve_left h0
    obtain ⟨N, hN⟩ := float64_grid s
    refine ⟨ulpExp s, N, ?_, ?_, hN, float64_abs_le s⟩
    · have := ulpExp_ge hl
      omega
    · have := ulpExp_le h0 (j := 52) (by norm_num) (by simpa using hhi)
      omega

theorem float64_div24_lt {H : ℚ} (hg : OnGrid H) (K : ℤ) (h : H < 24 * K) :
    float64 (H / 24) < K := by
  obtain ⟨e, N, he1, he2, hN, hb⟩ := hg
  have hu := two_zpow_pos e
  by_cases h0 : H = 0
  · rw [h0, zero_div, float64_zero]
    rw [h0] at h
    linarith
  · obtain ⟨M, hM⟩ := exists_grid_int (24 * K) he2
    have hNM : N < M := by
      have : (N : ℚ) * 2 ^ e < M * 2 ^ e := by
        rw [← hN, ← hM]
        push_cast
        exact h
      have := lt_of_mul_lt_mul_right this hu.le
      exact_mod_cast this
    have hNM' : (N : ℚ) + 1 ≤ M := by exact_mod_cast hNM
    have hH : H ≤ 24 * K - 2 ^ e := by
      have h24 : (24 : ℚ) * K = M * 2 ^ e := by
        rw [← hM]
        push_cast
        ring
      rw [hN, h24]
      nlinarith
    have hx : H / 24 ≠ 0 := div_ne_zero h0 (by norm_num)
    have hlt : |H / 24| < 2 ^ (e + 48 + 1) := by
      rw [abs_div, abs_of_pos (by norm_num : (0 : ℚ) < 24)]
      have e1 : (2 : ℚ) ^ (e + 53) = 2 ^ e * 2 ^ (53 : ℤ) := zpow_add₀ (by norm_num) _ _
      have e2 : (2 : ℚ) ^ (e + 48 + 1) = 2 ^ e * 2 ^ (49 : ℤ) := by
        rw [show e + 48 + 1 = e + 49 by ring]
        exact zpow_add₀ (by norm_num) _ _
      rw [e1] at hb
      rw [e2, div_lt_iff₀ (by norm_num)]
      have : (2 : ℚ) ^ e * 2 ^ (53 : ℤ) < 2 ^ e * 2 ^ (49 : ℤ) * 24 := by
        have h53 : (2 : ℚ) ^ (53 : ℤ) = 9007199254740992 := by norm_num
        have h49 : (2 : ℚ) ^ (49 : ℤ) = 562949953421312 := by norm_num
        rw [h53, h49]
        nlinarith
      linarith
    have hulp : ulpExp (H / 24) ≤ e - 4 := by
      have := ulpExp_le hx (j := e + 48) (by omega) hlt
      omega
    have herr := float64_abs_sub_le (H / 24)
    have hpow : (2 : ℚ) ^ ulpExp (H / 24) ≤ 2 ^ (e - 4) :=
      zpow_le_zpow_right₀ (by norm_num) hulp
    have e4 : (2 : ℚ) ^ (e - 4) = 2 ^ e / 16 := by
      rw [zpow_sub₀ (by norm_num : (2 : ℚ) ≠ 0)]
      norm_num
    rw [e4] at hpow
    have := (abs_le.mp herr).2
    linarith

theorem onGrid_neg {H : ℚ} (hg : OnGrid H) : OnGrid (-H) := by
  obtain ⟨e, N, he1, he2, hN, hb⟩ := hg
  exact ⟨e, -N, he1, he2, by rw [hN]; push_cast; ring, by rwa [abs_neg]⟩

theorem float64_div24_gt {H : ℚ} (hg : OnGrid H) (K : ℤ) (h : 24 * (K : ℚ) < H) :
    (K : ℚ) < float64 (H / 24) := by
  have h1 := float64_div24_lt (onGrid_neg hg) (-K) (by push_cast; linarith)
  rw [neg_div, float64_neg] at h1
  push_cast at h1
  linarith

/-! ## `Duration.Hours` and the day count: helper lemmas -/

theorem hourFraction_bounds (n : ℤ) (h0 : 0 ≤ n) (h1 : n < 3600000000000) :
    0 ≤ float64 (float64 (n : ℚ) / 3600000000000) ∧
    float64 (float64 (n : ℚ) / 3600000000000) ≤ 1 - 9 / 2 ^ 45 ∧
    (0 < n → 9 / 2 ^ 45 ≤ float64 (float64 (n : ℚ) / 3600000000000)) ∧
    (n = 0 → float64 (float64 (n : ℚ) / 3600000000000) = 0) := by
  have hn0 : (0 : ℚ) ≤ n := by exact_mod_cast h0
  have hn1 : (n : ℚ) ≤ 3600000000000 - 1 := by
    have : n ≤ 3600000000000 - 1 := by omega
    exact_mod_cast this
  have hfn : float64 (n : ℚ) = n := by
    apply float64_intCast
    rw [abs_of_nonneg hn0]
    have : (2 : ℚ) ^ (53 : ℤ) = 9007199254740992 := by norm_num
    rw [this]
    linarith
  rw [hfn]
  by_cases hz : n = 0
  · subst hz
    simp only [Int.cast_zero, zero_div, float64_zero, le_refl, true_and, implies_true, and_true]
    refine ⟨by norm_num, fun h => absurd h (lt_irrefl 0)⟩
  · have hpos : 0 < n := by omega
    have hq0 : (n : ℚ) / 3600000000000 ≠ 0 := by
      apply div_ne_zero _ (by norm_num)
      exact_mod_cast hz
    have hq1 : (1 : ℚ) / 3600000000000 ≤ (n : ℚ) / 3600000000000 := by
      apply div_le_div_of_nonneg_right _ (by norm_num)
      exact_mod_cast hpos
    have hq2 : (n : ℚ) / 3600000000000 ≤ 1 - 1 / 3600000000000 := by
      rw [div_le_iff₀ (by norm_num)]
      linarith
    have hu : ulpExp ((n : ℚ) / 3600000000000) ≤ -45 := by
      have : |(n : ℚ) / 3600000000000| < 2 ^ ((-1 : ℤ) + 1) := by
        rw [abs_of_nonneg (by positivity)]
        norm_num
        rw [div_lt_iff₀ (by norm_num)]
        linarith
      have := ulpExp_le hq0 (j := -1) (by norm_num) this
      omega
    obtain ⟨a, ha⟩ := exists_grid 9 hu
    obtain ⟨b, hb⟩ := exists_grid (2 ^ 45 - 9) hu
    have ha' : (9 : ℚ) / 2 ^ 45 = a * 2 ^ ulpExp ((n : ℚ) / 3600000000000) := by
      rw [← ha]
      norm_num
    have hb' : (1 : ℚ) - 9 / 2 ^ 45 = b * 2 ^ ulpExp ((n : ℚ) / 3600000000000) := by
      rw [← hb]
      norm_num
    have hlo : (9 : ℚ) / 2 ^ 45 ≤ float64 ((n : ℚ) / 3600000000000) :=
      float64_ge_of_grid (le_trans (by norm_num) hq1) a ha'
    have hhi : float64 ((n : ℚ) / 3600000000000) ≤ 1 - 9 / 2 ^ 45 :=
      float64_le_of_grid (le_trans hq2 (by norm_num)) b hb'
    refine ⟨le_trans (by norm_num) hlo, hhi, fun _ => hlo, fun h => absurd h hz⟩

theorem neg_tmod (a b : ℤ) : (-a).tmod b = -(a.tmod b) := by
  rw [Int.tmod_def, Int.tmod_def, Int.neg_tdiv]
  ring

theorem durationHours_neg (d : ℤ) : durationHours (-d) = -durationHours d := by
  unfold durationHours
  rw [Int.neg_tdiv, neg_tmod]
  push_cast
  rw [float64_neg, float64_neg, neg_div, float64_neg, ← neg_add, float64_neg]

theorem durationHours_nonneg (d : ℤ) (h0 : 0 ≤ d) (h1 : d ≤ 2 ^ 63) :
    ((d / 3600000000000 : ℤ) : ℚ) ≤ durationHours d ∧
    durationHours d ≤ (d / 3600000000000 : ℤ) + 1 ∧
    OnGrid (durationHours d) ∧
    (d % 3600000000000 = 0 → durationHours d = (d / 3600000000000 : ℤ)) ∧
    (d < 4096 * 3600000000000 →
      durationHours d < (d / 3600000000000 : ℤ) + 1 ∧
      (0 < d % 3600000000000 → ((d / 3600000000000 : ℤ) : ℚ) < durationHours d)) := by
  have hdiv : Int.tdiv d Hour = d / 3600000000000 :=
    Int.tdiv_eq_ediv h0 (by decide)
  have hmod : Int.tmod d Hour = d % 3600000000000 :=
    Int.tmod_eq_emod h0 (by decide)
  unfold durationHours
  rw [hdiv, hmod]
  generalize hh : d / 3600000000000 = h
  generalize hn : d % 3600000000000 = n
  have hh0 : 0 ≤ h := by omega
  have hh1 : h ≤ 2562047 := by omega
  have hn0 : 0 ≤ n := by omega
  have hn1 : n < 3600000000000 := by omega
  have hhq0 : (0 : ℚ) ≤ h := by exact_mod_cast hh0
  have hhq1 : (h : ℚ) ≤ 2562047 := by exact_mod_cast hh1
  have h53 : (2 : ℚ) ^ (53 : ℤ) = 9007199254740992 := by norm_num
  have hfh : float64 (h : ℚ) = h := by
    apply float64_intCast
    rw [abs_of_nonneg hhq0, h53]
    linarith
  rw [hfh]
  obtain ⟨f0, f1, f2, f3⟩ := hourFraction_bounds n hn0 hn1
  generalize float64 (float64 (n : ℚ) / 3600000000000) = f at f0 f1 f2 f3
  have hs0 : 0 ≤ (h : ℚ) + f := by linarith
  have hsabs : |(h : ℚ) + f| < 2 ^ (53 : ℤ) := by
    rw [abs_of_nonneg hs0, h53]
    have : (9 : ℚ) / 2 ^ 45 > 0 := by norm_num
    linarith
  have hlo : ((h : ℤ) : ℚ) ≤ float64 ((h : ℚ) + f) :=
    float64_ge_int h hsabs (by linarith)
  have hhi : float64 ((h : ℚ) + f) ≤ ((h + 1 : ℤ) : ℚ) :=
    float64_le_int (h + 1) hsabs (by
      push_cast
      have : (9 : ℚ) / 2 ^ 45 > 0 := by norm_num
      linarith)
  push_cast at hhi
  have hgrid : OnGrid (float64 ((h : ℚ) + f)) := by
    apply onGrid_float64 _ hsabs
    by_cases hz : n = 0
    · by_cases hz' : h = 0
      · left
        rw [f3 hz, hz']
        simp
      · right
        have : (1 : ℚ) ≤ h := by
          have : 1 ≤ h := by omega
          exact_mod_cast this
        rw [abs_of_nonneg hs0]
        have e : (2 : ℚ) ^ (-94 : ℤ) ≤ 1 := by norm_num
        linarith
    · right
      have := f2 (by omega)
      rw [abs_of_nonneg hs0]
      have e : (2 : ℚ) ^ (-94 : ℤ) ≤ f := le_trans (by norm_num) this
      linarith
  refine ⟨hlo, hhi, hgrid, fun hz => ?_, fun hsmall => ?_⟩
  · rw [f3 hz, add_zero, hfh]
  · have hh2 : (h : ℚ) ≤ 4095 := by
      have : h ≤ 4095 := by omega
      exact_mod_cast this
    have herr := abs_le.mp (float64_abs_sub_le ((h : ℚ) + f))
    by_cases hs : (h : ℚ) + f = 0
    · have hf0 : f = 0 := by linarith
      have hh0' : (h : ℚ) = 0 := by linarith
      rw [hs, float64_zero, hh0']
      refine ⟨by norm_num, fun hpos => ?_⟩
      have := f2 hpos
      rw [hf0] at this
      norm_num at this
    · have hu : ulpExp ((h : ℚ) + f) ≤ -41 := by
        have : |(h : ℚ) + f| < 2 ^ ((11 : ℤ) + 1) := by
          rw [abs_of_nonneg hs0]
          norm_num
          have : (9 : ℚ) / 2 ^ 45 > 0 := by norm_num
          linarith
        have := ulpExp_le hs (j := 11) (by norm_num) this
        omega
      have hpow : (2 : ℚ) ^ ulpExp ((h : ℚ) + f) ≤ 2 ^ (-41 : ℤ) :=
        zpow_le_zpow_right₀ (by norm_num) hu
      have e41 : (2 : ℚ) ^ (-41 : ℤ) = 16 / 2 ^ 45 := by norm_num
      rw [e41] at hpow
      constructor
      · have := herr.2
        have e9 : (9 : ℚ) / 2 ^ 45 = 9 / 2 ^ 45 := rfl
        linarith
      · intro hpos
        have := f2 hpos
        have := herr.1
        linarith

theorem days_of_nonneg (d : ℤ) (h0 : 0 ≤ d) (h1 : d ≤ 2 ^ 63) :
    (⌊float64 (durationHours d / 24)⌋ = d / 86400000000000 ∨
      ⌊float64 (durationHours d / 24)⌋ = d / 86400000000000 + 1) ∧
    (d < 4096 * 3600000000000 →
      ⌊float64 (durationHours d / 24)⌋ = d / 86400000000000) ∧
    (d % 86400000000000 = 0 →
      float64 (durationHours d / 24) = (d / 86400000000000 : ℤ)) ∧
    ((d / 86400000000000 : ℤ) : ℚ) ≤ float64 (durationHours d / 24) ∧
    float64 (durationHours d / 24) ≤ (d / 86400000000000 : ℤ) + 1 ∧
    (d < 4096 * 3600000000000 → d % 86400000000000 ≠ 0 →
      ((d / 86400000000000 : ℤ) : ℚ) < float64 (durationHours d / 24)) := by
  obtain ⟨b1, b2, b3, b4, b5⟩ := durationHours_nonneg d h0 h1
  generalize hh : d / 3600000000000 = h at b1 b2 b4 b5
  generalize hk : d / 86400000000000 = k
  generalize durationHours d = D at b1 b2 b3 b4 b5
  have hk0 : 0 ≤ k := by omega
  have hk1 : 24 * k ≤ h := by omega
  have hk2 : h + 1 ≤ 24 * k + 24 := by omega
  have hk3 : k ≤ 106751 := by omega
  have q1 : (24 : ℚ) * k ≤ h := by exact_mod_cast hk1
  have q2 : (h : ℚ) + 1 ≤ 24 * k + 24 := by exact_mod_cast hk2
  have q0 : (0 : ℚ) ≤ k := by exact_mod_cast hk0
  have q3 : (k : ℚ) ≤ 106751 := by exact_mod_cast hk3
  have hD0 : (k : ℚ) ≤ D / 24 := by
    rw [le_div_iff₀ (by norm_num)]
    linarith
  have hD1 : D / 24 ≤ ((k + 1 : ℤ) : ℚ) := by
    rw [div_le_iff₀ (by norm_num)]
    push_cast
    linarith
  have habs : |D / 24| < 2 ^ (53 : ℤ) := by
    rw [abs_of_nonneg (le_trans q0 hD0)]
    have h53 : (2 : ℚ) ^ (53 : ℤ) = 9007199254740992 := by norm_num
    rw [h53]
    push_cast at hD1
    linarith
  have hF0 : (k : ℚ) ≤ float64 (D / 24) := float64_ge_int k habs hD0
  have hF1 : float64 (D / 24) ≤ ((k + 1 : ℤ) : ℚ) := float64_le_int (k + 1) habs hD1
  have hfl0 : k ≤ ⌊float64 (D / 24)⌋ := Int.le_floor.mpr hF0
  have hfl1 : ⌊float64 (D / 24)⌋ ≤ k + 1 := by
    have : ((⌊float64 (D / 24)⌋ : ℤ) : ℚ) ≤ ((k + 1 : ℤ) : ℚ) :=
      le_trans (Int.floor_le _) hF1
    exact_mod_cast this
  push_cast at hF1
  refine ⟨by omega, fun hs => ?_, fun hm => ?_, hF0, hF1, fun hs hm => ?_⟩
  · have hlt : float64 (D / 24) < ((k + 1 : ℤ) : ℚ) := by
      apply float64_div24_lt b3
      push_cast
      linarith [(b5 hs).1]
    rw [Int.floor_eq_iff]
    push_cast at hlt
    exact ⟨hF0, hlt⟩
  · have hh24 : h = 24 * k := by omega
    have hD : D = 24 * (k : ℚ) := by
      rw [b4 (by omega), hh24]
      push_cast
      ring
    rw [hD, mul_div_cancel_left₀ _ (by norm_num : (24 : ℚ) ≠ 0)]
    apply float64_intCast
    rw [abs_of_nonneg q0]
    have h53 : (2 : ℚ) ^ (53 : ℤ) = 9007199254740992 := by norm_num
    rw [h53]
    linarith
  · apply float64_div24_gt b3
    by_cases hn : 0 < d % 3600000000000
    · linarith [(b5 hs).2 hn]
    · have : 24 * k + 1 ≤ h := by omega
      have : (24 : ℚ) * k + 1 ≤ h := by exact_mod_cast this
      linarith

theorem days_of_neg (d : ℤ) (h0 : d < 0) (h1 : -(2 ^ 63) ≤ d) :
    (⌊float64 (durationHours d / 24)⌋ = d / 86400000000000 ∨
      ⌊float64 (durationHours d / 24)⌋ = d / 86400000000000 + 1) ∧
    (-(4096 * 3600000000000) < d →
      ⌊float64 (durationHours d / 24)⌋ = d / 86400000000000) := by
  obtain ⟨-, -, c3, c4, c5, c6⟩ := days_of_nonneg (-d) (by omega) (by omega)
  have hD : durationHours d = -durationHours (-d) := by
    rw [durationHours_neg, neg_neg]
  rw [hD, neg_div, float64_neg]
  generalize float64 (durationHours (-d) / 24) = F at c3 c4 c5 c6
  generalize hk' : (-d) / 86400000000000 = k' at c3 c4 c5 c6
  by_cases hm : (-d) % 86400000000000 = 0
  · have hk : d / 86400000000000 = -k' := by omega
    rw [c3 hm, hk]
    have : ⌊-(k' : ℚ)⌋ = -k' := by
      rw [← Int.cast_neg, Int.floor_intCast]
    rw [this]
    exact ⟨Or.inl rfl, fun _ => rfl⟩
  · have hk : d / 86400000000000 = -k' - 1 := by omega
    rw [hk]
    have hfl0 : -k' - 1 ≤ ⌊-F⌋ := by
      apply Int.le_floor.mpr
      push_cast
      linarith
    have hfl1 : ⌊-F⌋ ≤ -k' := by
      have : ((⌊-F⌋ : ℤ) : ℚ) ≤ ((-k' : ℤ) : ℚ) := by
        push_cast
        linarith [Int.floor_le (-F)]
      exact_mod_cast this
    refine ⟨by omega, fun hs => ?_⟩
    have hlt := c6 (by omega) hm
    rw [Int.floor_eq_iff]
    push_cast
    constructor <;> linarith

theorem timeSub_range (t u : ℤ) :
    -(2 ^ 63) ≤ timeSub t u ∧ timeSub t u ≤ 2 ^ 63 - 1 := by
  unfold timeSub maxDuration minDuration
  split_ifs <;> omega

theorem timeSub_of_small (t u : ℤ) (h0 : -(4096 * 3600000000000) < t - u)
    (h1 : t - u < 4096 * 3600000000000) : timeSub t u = t - u := by
  unfold timeSub maxDuration minDuration
  split_ifs <;> omega

theorem timeSub_neg (t u : ℤ) (h : t < u) : timeSub t u < 0 := by
  unfold timeSub maxDuration minDuration
  split_ifs <;> omega

theorem days_of_duration (d : ℤ) (h0 : -(2 ^ 63) ≤ d) (h1 : d ≤ 2 ^ 63) :
    (⌊float64 (durationHours d / 24)⌋ = d / 86400000000000 ∨
      ⌊float64 (durationHours d / 24)⌋ = d / 86400000000000 + 1) ∧
    (-(4096 * 3600000000000) < d → d < 4096 * 3600000000000 →
      ⌊float64 (durationHours d / 24)⌋ = d / 86400000000000) := by
  by_cases hd : 0 ≤ d
  · obtain ⟨c1, c2, -⟩ := days_of_nonneg d hd h1
    exact ⟨c1, fun _ hs => c2 hs⟩
  · obtain ⟨c1, c2⟩ := days_of_neg d (by omega) h0
    exact ⟨c1, fun hs _ => c2 hs⟩

theorem durationHours_rounds_up : durationHours 14774399999999999 = 4104 := by
  have hdiv : Int.tdiv 14774399999999999 Hour = 4103 := by decide
  have hmod : Int.tmod 14774399999999999 Hour = 3599999999999 := by decide
  unfold durationHours
  rw [hdiv, hmod]
  have h53 : (2 : ℚ) ^ (53 : ℤ) = 9007199254740992 := by norm_num
  have e1 : float64 ((4103 : ℤ) : ℚ) = (4103 : ℤ) :=
    float64_intCast 4103 (by rw [h53]; norm_num [abs_of_nonneg])
  have e2 : float64 ((3599999999999 : ℤ) : ℚ) = (3599999999999 : ℤ) :=
    float64_intCast 3599999999999 (by rw [h53]; norm_num [abs_of_nonneg])
  rw [e1, e2]
  push_cast
  have hq0 : (3599999999999 : ℚ) / 3600000000000 ≠ 0 := by norm_num
  have hu : ulpExp ((3599999999999 : ℚ) / 3600000000000) ≤ -43 := by
    have := ulpExp_le hq0 (j := -1) (by norm_num)
      (by rw [abs_of_nonneg (by norm_num)]; norm_num)
    omega
  obtain ⟨a, ha⟩ := exists_grid (2 ^ 43 - 3) hu
  have hlo : (1 : ℚ) - 3 / 2 ^ 43 ≤ float64 ((3599999999999 : ℚ) / 3600000000000) :=
    float64_ge_of_grid (by norm_num) a (by rw [← ha]; norm_num)
  have hhi : float64 ((3599999999999 : ℚ) / 3600000000000) ≤ ((1 : ℤ) : ℚ) :=
    float64_le_int 1 (by rw [abs_of_nonneg (by norm_num), h53]; norm_num) (by norm_num)
  push_cast at hhi
  generalize float64 ((3599999999999 : ℚ) / 3600000000000) = f at hlo hhi
  have hs0 : (0 : ℚ) ≤ 4103 + f := by linarith
  have h := float64_eq_of_near (x := 4103 + f) (e := -40) (4104 * 2 ^ 40)
    (by rw [abs_of_nonneg hs0]; norm_num; linarith)
    (by rw [abs_of_nonneg hs0]; norm_num; linarith)
    (by norm_num)
    (by
      rw [abs_lt]
      norm_num
      constructor <;> linarith)
  rw [h]
  norm_num

theorem numDays_one_ns_short_of_171_days :
    ⌊float64 (durationHours 14774399999999999 / 24)⌋ = 171 := by
  rw [durationHours_rounds_up]
  have h53 : (2 : ℚ) ^ (53 : ℤ) = 9007199254740992 := by norm_num
  have e : float64 ((171 : ℤ) : ℚ) = (171 : ℤ) :=
    float64_intCast 171 (by rw [h53]; norm_num [abs_of_nonneg])
  have : (4104 : ℚ) / 24 = ((171 : ℤ) : ℚ) := by norm_num
  rw [this, e, Int.floor_intCast]

/-! ## The day count handed to the template: claims -/

/-- C4, as stated, fails: a certificate that expires one nanosecond short
of 171 days from now (`170 * 24h ≤ d < 171 * 24h`, judged expiring under a
lifetime of 200 days) gets `NumDays = 171`, not the exact floor 170: the
float64 sum in `Hours()` rounds `4103 + 0.99999999999972...` to `4104`. -/
theorem numDays_one_ns_short_is_rounded_up :
    170 * (24 * Hour) ≤ (171 * (24 * Hour) - 1) - 0 ∧
    (171 * (24 * Hour) - 1) - 0 < 171 * (24 * Hour) ∧
    expiring 0 (200 * (24 * Hour)) (171 * (24 * Hour) - 1) = true ∧
    ((171 * (24 * Hour) - 1) - 0) / (24 * Hour) = 170 ∧
    numDays (171 * (24 * Hour) - 1) 0 = 171 := by
  refine ⟨by decide, by decide, by decide, by decide, ?_⟩
  have h : timeSub (171 * (24 * Hour) - 1) 0 = 14774399999999999 := by decide
  unfold numDays
  rw [h]
  exact numDays_one_ns_short_of_171_days

/-- C4, amended: `NumDays` is the floor of the float64 quotient
`Hours() / 24.0` of the duration `d = notAfter - now` (saturated to int64).
For every `d` it is the exact floor `k` of `d / 24h` or `k + 1`; whenever
`|d| < 4096h` it is exactly `k`, durations one nanosecond short of a whole
number of days included; and it is negative for a certificate that has
already expired. -/
theorem numDays_floor (expiration now : Int) :
    (numDays expiration now = timeSub expiration now / (24 * Hour) ∨
      numDays expiration now = timeSub expiration now / (24 * Hour) + 1) ∧
    (-(4096 * Hour) < expiration - now → expiration - now < 4096 * Hour →
      numDays expiration now = (expiration - now) / (24 * Hour)) ∧
    (expiration < now → numDays expiration now < 0) := by
  have hH : (24 : Int) * Hour = 86400000000000 := by decide
  have hH' : (4096 : Int) * Hour = 4096 * 3600000000000 := by decide
  rw [hH, hH']
  obtain ⟨r0, r1⟩ := timeSub_range expiration now
  obtain ⟨g, sm⟩ := days_of_duration (timeSub expiration now) r0 (by omega)
  unfold numDays
  refine ⟨g, fun h0 h1 => ?_, fun hlt => ?_⟩
  · have e := timeSub_of_small expiration now h0 h1
    rw [e] at sm ⊢
    exact sm h0 h1
  · have hneg := timeSub_neg expiration now hlt
    by_cases hs : -(4096 * 3600000000000) < timeSub expiration now
    · rw [sm hs (by omega)]
      omega
    · rcases g with g | g <;> rw [g] <;> omega

/-- Witness of C4 amended: five days left give 5, one nanosecond less gives
4, and a certificate expired one nanosecond ago gives a negative count. -/
theorem numDays_floor_witness :
    numDays (5 * (24 * Hour)) 0 = (5 * (24 * Hour) - 0) / (24 * Hour) ∧
    (5 * (24 * Hour) - 0) / (24 * Hour) = 5 ∧
    numDays (5 * (24 * Hour) - 1) 0 = (5 * (24 * Hour) - 1 - 0) / (24 * Hour) ∧
    (5 * (24 * Hour) - 1 - 0) / (24 * Hour) = 4 ∧
    numDays 0 1 < 0 :=
  ⟨(numDays_floor (5 * (24 * Hour)) 0).2.1 (by decide) (by decide), by decide,
   (numDays_floor (5 * (24 * Hour) - 1) 0).2.1 (by decide) (by decide), by decide,
   (numDays_floor 0 1).2.2 (by decide)⟩

/-! ## The dispatcher: invariant and claim -/

theorem Pipeline.inv_start (producers : List Nat) : (Pipeline.start producers).Inv := by
  simp [Pipeline.Inv, Pipeline.start]

theorem Pipeline.inv_step {s t : Pipeline} {a : Action} (h : s.Inv) (hs : s.step a = some t) :
    t.Inv := by
  obtain ⟨i1, i2, i3, i4, i5, i6⟩ := h
  unfold Pipeline.step at hs
  by_cases hc : s.crashed = true
  · simp [hc] at hs
  · simp only [hc, Bool.false_eq_true, if_false] at hs
    cases a with
    | emit i =>
      simp only at hs
      split at hs
      · split_ifs at hs with h1 h2
        · cases hs
          exact ⟨i1, i2, i3, i4, i5, i6⟩
        · cases hs
          simp only [Pipeline.Inv] at *
          simp_all
      · exact absurd hs (by simp)
    | taskReturns i =>
      simp only at hs
      split at hs
      · cases hs
        exact ⟨i1, i2, i3, i4, i5, i6⟩
      · exact absurd hs (by simp)
    | wgAdd =>
      simp only at hs
      split_ifs at hs with h1
      cases hs
      simp only [Pipeline.Inv] at *
      simp_all
      try omega
    | spawn =>
      simp only at hs
      split_ifs at hs with h1
      cases hs
      simp only [Pipeline.Inv] at *
      simp_all
      try omega
    | sendReturns =>
      simp only at hs
      split_ifs at hs with h1
      cases hs
      simp only [Pipeline.Inv] at *
      refine ⟨by omega, by omega, i3, i4, i5, i6⟩
    | sendDone =>
      simp only at hs
      split_ifs at hs with h1 h2
      · cases hs
        simp only [Pipeline.Inv] at *
        refine ⟨by omega, i2, i3, fun h => ?_, i5, i6⟩
        have := i4 h
        omega
      · cases hs
        exact ⟨i1, i2, i3, i4, i5, i6⟩
    | closeIntake =>
      simp only at hs
      split_ifs at hs with h1
      cases hs
      simp only [Pipeline.Inv] at *
      simp_all
    | rangeEnds =>
      simp only at hs
      split_ifs at hs with h1
      cases hs
      simp only [Pipeline.Inv] at *
      simp_all
    | waitReturns =>
      simp only at hs
      split_ifs at hs with h1
      cases hs
      simp only [Pipeline.Inv] at *
      simp_all
    | closeSent =>
      simp only at hs
      split_ifs at hs with h1
      cases hs
      simp only [Pipeline.Inv] at *
      simp_all
    | finish =>
      simp only at hs
      split_ifs at hs with h1
      cases hs
      simp only [Pipeline.Inv] at *
      simp_all
    | crash =>
      simp only at hs
      cases hs
      exact ⟨i1, i2, i3, i4, i5, i6⟩

theorem Pipeline.inv_run {s t : Pipeline} (h : s.Inv) (acts : List Action)
    (hr : s.run acts = some t) : t.Inv := by
  induction acts generalizing s with
  | nil =>
    simp only [Pipeline.run, Option.some.injEq] at hr
    exact hr ▸ h
  | cons a rest ih =>
    simp only [Pipeline.run] at hr
    cases hst : s.step a with
    | none => simp [hst] at hr
    | some u =>
      rw [hst] at hr
      exact ih (Pipeline.inv_step h hst) hr

/-- C10: in every state of every run, once the completion signal has fired
(`notificationsSent` closed) the intake `notificationsChan` is closed, no
send goroutine is unfinished (none inside `sendMessage`, none before its
`Done()`, the WaitGroup counter is zero) and every received alert has had
its send attempt return; `main` is past "Finished run" only in such a
state. -/
theorem completion_signal_is_join_barrier (producers : List Nat) (schedule : List Action)
    (s : Pipeline) (hrun : (Pipeline.start producers).run schedule = some s) :
    (s.sentClosed = true →
      s.chanClosed = true ∧ s.wg = 0 ∧ s.sending = 0 ∧ s.logging = 0 ∧
      s.attempted = s.emitted) ∧
    (s.mainPc = MainPc.finished →
      s.sentClosed = true ∧ s.chanClosed = true ∧ s.wg = 0 ∧ s.sending = 0 ∧
      s.logging = 0 ∧ s.attempted = s.emitted) := by
  obtain ⟨i1, i2, i3, i4, i5, i6⟩ :=
    Pipeline.inv_run (Pipeline.inv_start producers) schedule hrun
  have key : s.sentClosed = true →
      s.chanClosed = true ∧ s.wg = 0 ∧ s.sending = 0 ∧ s.logging = 0 ∧
      s.attempted = s.emitted := by
    intro h
    have hd := i5 h
    have hw := i4 (Or.inr hd)
    have hc := i3 (Or.inr (Or.inr hd))
    rw [hd] at i1 i2
    simp only [reduceCtorEq, if_false, or_self] at i1 i2
    exact ⟨hc, hw, by omega, by omega, by omega⟩
  exact ⟨key, fun h => ⟨i6 h, key (i6 h)⟩⟩

/-- Witness of C10: the sample schedule runs to the end with both alerts
attempted; cut before the second send is done, the dispatcher cannot leave
`Wait()`, and `main` cannot finish before the signal. -/
theorem completion_signal_is_join_barrier_witness :
    (Pipeline.start [2]).run sampleSchedule =
      some ⟨false, [none], MainPc.finished, true, DispatcherPc.signalled, 0, 0, 0, 2, 2, true⟩ ∧
    (true = true ∧ true = true ∧ (0 : Nat) = 0 ∧ (0 : Nat) = 0 ∧ (0 : Nat) = 0 ∧
      (2 : Nat) = 2) ∧
    (Pipeline.start [2]).run (sampleSchedule.take 11 ++ [Action.waitReturns]) = none ∧
    (Pipeline.start [2]).run (sampleSchedule.take 9 ++ [Action.finish]) = none :=
  ⟨by decide,
   (completion_signal_is_join_barrier [2] sampleSchedule
      ⟨false, [none], MainPc.finished, true, DispatcherPc.signalled, 0, 0, 0, 2, 2, true⟩
      (by decide)).2 rfl,
   by decide, by decide⟩

end CheckServiceCerts
